import Mathlib

/-!
Verification development for the variable-resolution and document-substitution
engine of the jurisdraft repository.

The embedding below translates the relevant JavaScript functions of
`src/unnamed/part_000` into Lean:

* the XML "text mapping" repair chain (`buildTextMap`,
  `findQuotedVariablesWithPositions`, `findNodeAtIndex`/`removeCharAtOffset`
  fused into `deleteCharAt`, and `repairXmlContent`'s mutation loop as
  `repairRuns`);
* the jurisdiction resolver `determineCourt` with its helpers;
* the derived-field pipeline `processDynamicVariables` with its helpers
  (`toTitleCase`, `standardizeAddress`, ...).

Strings of a document part are modelled as `List Char` (JavaScript string
indices are UTF-16 code units; every character manipulated by the repair
chain is in the BMP, so list positions coincide with JS indices).  The XML
DOM itself is not modelled: a document part is its ordered list of `<w:t>`
run texts, which is exactly the data `buildTextMap` extracts and
`repairXmlContent` mutates before serialising back.
-/

/-! ## Character classes used by the matcher (regex character classes) -/

/-- The quote class of the matcher regex `[""“”]`:
ASCII `"` (twice in the source class) plus the two curly quotes. -/
def isQuoteChar (c : Char) : Bool :=
  c = '"' || c = '“' || c = '”'

/-- `[A-Za-z]`. -/
def isAsciiLetter (c : Char) : Bool :=
  (65 ≤ c.toNat && c.toNat ≤ 90) || (97 ≤ c.toNat && c.toNat ≤ 122)

/-- `[A-Za-z0-9_]` (the tail class of the identifier, also regex `\w`). -/
def isIdentTail (c : Char) : Bool :=
  isAsciiLetter c || (48 ≤ c.toNat && c.toNat ≤ 57) || c = '_'

/-- ASCII upper-casing of one character (`String.prototype.toUpperCase`
restricted to the characters the engine manipulates). -/
def jsToUpperChar (c : Char) : Char :=
  if 97 ≤ c.toNat && c.toNat ≤ 122 then Char.ofNat (c.toNat - 32) else c

/-- ASCII lower-casing of one character (`String.prototype.toLowerCase`
restricted to the characters the engine manipulates). -/
def jsToLowerChar (c : Char) : Char :=
  if 65 ≤ c.toNat && c.toNat ≤ 90 then Char.ofNat (c.toNat + 32) else c

/-! ## `findQuotedVariablesWithPositions` (src/unnamed/part_000 lines 1174-1206)

The regex `([""“”])(\[)([A-Za-z][A-Za-z0-9_]*)(\])([""“”])/g`
is executed left to right with non-overlapping matches.  Because `]` is not in
the identifier class, the greedy `[A-Za-z0-9_]*` never backtracks, so the
regex is equivalent to the direct-scan function below. -/

structure VariableMatch where
  varName : List Char
  openQuoteIndex : Nat
  closeQuoteIndex : Nat
  openQuoteChar : Char
  closeQuoteChar : Char
deriving Repr, DecidableEq

/-- Try to match the quoted-variable pattern at the head of the text:
a quote, `[`, an identifier, `]`, a quote.  Returns the identifier (before
upper-casing) and the two quote characters. -/
def matchQuotedAt : List Char → Option (List Char × Char × Char)
  | q1 :: '[' :: c :: rest =>
    if isQuoteChar q1 && isAsciiLetter c then
      match rest.dropWhile isIdentTail with
      | ']' :: q2 :: _ =>
        if isQuoteChar q2 then some (c :: rest.takeWhile isIdentTail, q1, q2) else none
      | _ => none
    else none
  | _ => none

/-- The regex scan: at each position try the pattern; on success record the
match (variable name upper-cased, the open-quote index, and the close-quote
index `open + 1 + 1 + |name| + 1`) and resume after it, else advance one
position.  `fuel` only forces structural termination; it is initialised to
the text length, which bounds the number of steps. -/
def findQuotedAux : Nat → List Char → Nat → List VariableMatch
  | 0, _, _ => []
  | _ + 1, [], _ => []
  | fuel + 1, c :: rest, pos =>
    match matchQuotedAt (c :: rest) with
    | some (name, q1, q2) =>
      { varName := name.map jsToUpperChar
        openQuoteIndex := pos
        closeQuoteIndex := pos + name.length + 3
        openQuoteChar := q1
        closeQuoteChar := q2 }
        :: findQuotedAux fuel ((c :: rest).drop (name.length + 4)) (pos + (name.length + 4))
    | none => findQuotedAux fuel rest (pos + 1)

/-- `findQuotedVariablesWithPositions(fullText)`. -/
def findQuotedVariablesWithPositions (fullText : List Char) : List VariableMatch :=
  findQuotedAux fullText.length fullText 0

/-! ## `buildTextMap` (lines 1141-1163) -/

/-- One entry of the text position map: the run's recorded
`[startIndex, endIndex)` span in the concatenated text and its current text
(the entry's `text` and the node's `textContent` are kept equal by the
mutation loop, so one field models both). -/
structure MapEntry where
  startIndex : Nat
  endIndex : Nat
  text : List Char
deriving Repr, DecidableEq

def buildTextMapAux : Nat → List (List Char) → List MapEntry
  | _, [] => []
  | n, r :: rs => ⟨n, n + r.length, r⟩ :: buildTextMapAux (n + r.length) rs

/-- `buildTextMap(doc)`: concatenate the `<w:t>` run texts in document order,
recording each run's contribution span. -/
def buildTextMap (runs : List (List Char)) : List MapEntry :=
  buildTextMapAux 0 runs

/-! ## `findNodeAtIndex` (lines 1216-1227) and `removeCharAtOffset`
(lines 1236-1242), fused into one mutation step -/

/-- `removeCharAtOffset(node, localOffset)`:
`text.slice(0, localOffset) + text.slice(localOffset + 1)` guarded by
`0 <= localOffset < text.length`. -/
def removeCharAtOffset (text : List Char) (localOffset : Nat) : List Char :=
  if localOffset < text.length then
    text.take localOffset ++ text.drop (localOffset + 1)
  else text

/-- One surgical deletion against the (possibly stale) text map:
`findNodeAtIndex` walks the map in order and returns the first entry whose
recorded `[startIndex, endIndex)` span contains `charIndex`; then
`removeCharAtOffset` deletes the character at the local offset and the
entry's text is re-synchronised.  If no entry contains the index the loop
body is skipped (`if (closeNode)` / `if (openNode)`). -/
def deleteCharAt : List MapEntry → Nat → List MapEntry
  | [], _ => []
  | e :: es, charIndex =>
    if e.startIndex ≤ charIndex ∧ charIndex < e.endIndex then
      { e with text := removeCharAtOffset e.text (charIndex - e.startIndex) } :: es
    else e :: deleteCharAt es charIndex

/-! ## The mutation loop of `repairXmlContent` (lines 1256-1309) -/

/-- Stable insertion into a list sorted by descending `closeQuoteIndex`. -/
def insertByCloseDesc (m : VariableMatch) : List VariableMatch → List VariableMatch
  | [] => [m]
  | x :: xs =>
    if m.closeQuoteIndex ≤ x.closeQuoteIndex then x :: insertByCloseDesc m xs
    else m :: x :: xs

/-- `[...matches].sort((a, b) => b.closeQuoteIndex - a.closeQuoteIndex)`:
a stable comparison sort by descending close-quote index (JavaScript
`Array.prototype.sort` is stable; the concrete algorithm is unobservable,
so a stable insertion sort models it). -/
def sortByCloseDesc : List VariableMatch → List VariableMatch
  | [] => []
  | m :: ms => insertByCloseDesc m (sortByCloseDesc ms)

/-- The body of the `for (const match of sortedMatches)` loop: remove the
closing quote first, then the opening quote, each against the stale map. -/
def applyMatchDeletions (textMap : List MapEntry) (m : VariableMatch) : List MapEntry :=
  deleteCharAt (deleteCharAt textMap m.closeQuoteIndex) m.openQuoteIndex

/-- The per-character deletion plan of the loop: for each match in sorted
order, its close-quote index then its open-quote index.
(`ms` is the source's `matches`; that word is reserved in Lean.) -/
def repairPlan (ms : List VariableMatch) : List Nat :=
  (sortByCloseDesc ms).flatMap (fun m => [m.closeQuoteIndex, m.openQuoteIndex])

/-- `repairXmlContent`, observed at the level of the run texts: build the
map, find the quoted variables, return the input unchanged when there are
none, otherwise run the sorted mutation loop and read back the run texts
(serialisation preserves exactly the mutated `<w:t>` contents).
(`ms` is the source's `matches`; that word is reserved in Lean.) -/
def repairRuns (runs : List (List Char)) : List (List Char) :=
  let fullText := runs.flatten
  let ms := findQuotedVariablesWithPositions fullText
  if ms.isEmpty then runs
  else (((sortByCloseDesc ms).foldl applyMatchDeletions (buildTextMap runs)).map
    MapEntry.text)

/-! ## The naive oracle of the mutation-order property (spec §8)

The oracle applies the same planned single-character deletions, but after
every single deletion it rebuilds the text map from the current runs and
recomputes all remaining match positions against the new concatenated text
(a deletion at index `d` shifts every later index down by one). -/

/-- One oracle deletion: rebuild the text map fresh from the current runs,
locate the index, delete, and read the runs back. -/
def oracleDeleteOnce (runs : List (List Char)) (i : Nat) : List (List Char) :=
  (deleteCharAt (buildTextMap runs) i).map MapEntry.text

/-- Recomputed position of pending index `i` after a deletion at `d`. -/
def adjustIndex (d i : Nat) : Nat :=
  if d < i then i - 1 else i

/-- The oracle: delete the planned indices one at a time, rebuilding the
map and recomputing every remaining position after each single deletion. -/
def oracleApply : List (List Char) → List Nat → List (List Char)
  | runs, [] => runs
  | runs, i :: is => oracleApply (oracleDeleteOnce runs i) (is.map (adjustIndex i))
termination_by _ is => is.length
decreasing_by simp

example :
    repairRuns [['a', '"'], ['[', 'N'], ['a', 'm', 'e', ']'], ['"', 'b']] =
      [['a'], ['[', 'N'], ['a', 'm', 'e', ']'], ['b']] := by decide

example :
    repairRuns [['x', '[', 'R', 'A', 'W', ']', 'y']] = [['x', '[', 'R', 'A', 'W', ']', 'y']] := by
  decide

/-! ## Scanner facts -/

theorem matchQuotedAt_eq_some {l name : List Char} {q1 q2 : Char}
    (h : matchQuotedAt l = some (name, q1, q2)) :
    ∃ rest, l = q1 :: '[' :: (name ++ (']' :: q2 :: rest)) ∧
      isQuoteChar q1 = true ∧ isQuoteChar q2 = true ∧ 1 ≤ name.length := by
  rw [matchQuotedAt.eq_def] at h
  split at h
  next q1' c r =>
    split at h
    next hq =>
      split at h
      next q2' rest' heq =>
        split at h
        next hq2 =>
          obtain ⟨rfl, rfl, rfl⟩ : c :: r.takeWhile isIdentTail = name ∧ q1' = q1 ∧ q2' = q2 := by
            simpa using h
          refine ⟨rest', ?_, ((Bool.and_eq_true _ _).mp hq).1, hq2, by simp⟩
          have hr : r.takeWhile isIdentTail ++ r.dropWhile isIdentTail = r :=
            List.takeWhile_append_dropWhile isIdentTail r
          simp only [List.cons_append, List.append_assoc]
          rw [← heq, hr]
        · exact absurd h (by simp)
      next => exact absurd h (by simp)
    next => exact absurd h (by simp)
  next => exact absurd h (by simp)

/-- Position facts for every match the scanner produces: matches start at or
after the scan position, the close-quote index is determined by the name
length, both indices are in range, and both point at quote characters. -/
theorem findQuotedAux_spec :
    ∀ (fuel : Nat) (l : List Char) (pos : Nat) (m : VariableMatch),
      m ∈ findQuotedAux fuel l pos →
      pos ≤ m.openQuoteIndex ∧
      m.closeQuoteIndex = m.openQuoteIndex + (m.varName.length + 3) ∧
      m.closeQuoteIndex < pos + l.length ∧
      isQuoteChar (l.getD (m.openQuoteIndex - pos) 'x') = true ∧
      isQuoteChar (l.getD (m.closeQuoteIndex - pos) 'x') = true := by
  intro fuel
  induction fuel with
  | zero => intro l pos m hm; simp [findQuotedAux] at hm
  | succ fuel ih =>
    intro l pos m hm
    match l with
    | [] => simp [findQuotedAux] at hm
    | c :: rest =>
      rw [findQuotedAux] at hm
      cases hq : matchQuotedAt (c :: rest) with
      | none =>
        rw [hq] at hm
        obtain ⟨h1, h2, h3, h4, h5⟩ := ih rest (pos + 1) m hm
        refine ⟨by omega, h2, by simp; omega, ?_, ?_⟩
        · have : m.openQuoteIndex - pos = (m.openQuoteIndex - (pos + 1)) + 1 := by omega
          rw [this]; simpa using h4
        · have hc : pos + 1 ≤ m.closeQuoteIndex := by omega
          have : m.closeQuoteIndex - pos = (m.closeQuoteIndex - (pos + 1)) + 1 := by omega
          rw [this]; simpa using h5
      | some v =>
        obtain ⟨name, q1, q2⟩ := v
        rw [hq] at hm
        obtain ⟨restTail, hl, hq1, hq2, hlen⟩ := matchQuotedAt_eq_some hq
        simp only [List.mem_cons] at hm
        rcases hm with rfl | hm
        · refine ⟨le_refl _, by simp [Nat.add_assoc], ?_, ?_, ?_⟩
          · simp only [hl]; simp; omega
          · simp [hl, hq1]
          · have hidx : pos + name.length + 3 - pos = name.length + 3 := by omega
            simp only [hidx, hl]
            have harr : q1 :: '[' :: (name ++ (']' :: q2 :: restTail)) =
                (q1 :: '[' :: name) ++ (']' :: q2 :: restTail) := by simp
            rw [harr, List.getD_eq_getElem?_getD,
              List.getElem?_append_right (by simp)]
            have hidx2 : name.length + 3 - (q1 :: '[' :: name).length = 1 := by
              simp
            rw [hidx2]
            simpa using hq2
        · obtain ⟨h1, h2, h3, h4, h5⟩ :=
            ih ((c :: rest).drop (name.length + 4)) (pos + (name.length + 4)) m hm
          have hlenl : name.length + 4 ≤ (c :: rest).length := by
            rw [hl]; simp
          have hdl : ((c :: rest).drop (name.length + 4)).length =
              (c :: rest).length - (name.length + 4) := by simp
          refine ⟨by omega, h2, by omega, ?_, ?_⟩
          · have : m.openQuoteIndex - pos =
                (name.length + 4) + (m.openQuoteIndex - (pos + (name.length + 4))) := by omega
            rw [this, List.getD_eq_getElem?_getD, ← List.getElem?_drop,
              ← List.getD_eq_getElem?_getD]
            exact h4
          · have hc : pos + (name.length + 4) ≤ m.closeQuoteIndex := by omega
            have : m.closeQuoteIndex - pos =
                (name.length + 4) + (m.closeQuoteIndex - (pos + (name.length + 4))) := by omega
            rw [this, List.getD_eq_getElem?_getD, ← List.getElem?_drop,
              ← List.getD_eq_getElem?_getD]
            exact h5

/-- Matches are produced left to right: each match's close quote lies
strictly before the next match's open quote (and hence before its close
quote). -/
theorem findQuotedAux_chain :
    ∀ (fuel : Nat) (l : List Char) (pos : Nat),
      List.Chain' (fun a b : VariableMatch =>
        a.closeQuoteIndex < b.openQuoteIndex ∧ a.closeQuoteIndex < b.closeQuoteIndex)
        (findQuotedAux fuel l pos) := by
  intro fuel
  induction fuel with
  | zero => intro l pos; simp [findQuotedAux]
  | succ fuel ih =>
    intro l pos
    match l with
    | [] => simp [findQuotedAux]
    | c :: rest =>
      rw [findQuotedAux]
      cases hq : matchQuotedAt (c :: rest) with
      | none => exact ih rest (pos + 1)
      | some v =>
        obtain ⟨name, q1, q2⟩ := v
        refine List.chain'_cons'.mpr ⟨?_, ih _ _⟩
        intro y hy
        have hy' : y ∈ findQuotedAux fuel ((c :: rest).drop (name.length + 4))
            (pos + (name.length + 4)) := List.mem_of_mem_head? hy
        obtain ⟨h1, h2, _, _, _⟩ := findQuotedAux_spec _ _ _ _ hy'
        constructor <;> simp <;> omega

/-- Elements of the sorted list are elements of the input. -/
theorem mem_insertByCloseDesc {x m : VariableMatch} {l : List VariableMatch} :
    x ∈ insertByCloseDesc m l → x = m ∨ x ∈ l := by
  induction l with
  | nil => intro h; simp [insertByCloseDesc] at h; exact Or.inl h
  | cons a l ih =>
    intro h
    rw [insertByCloseDesc] at h
    split at h
    · rcases List.mem_cons.mp h with rfl | h2
      · exact Or.inr (List.mem_cons_self _ _)
      · rcases ih h2 with rfl | h3
        · exact Or.inl rfl
        · exact Or.inr (List.mem_cons_of_mem _ h3)
    · rcases List.mem_cons.mp h with rfl | h2
      · exact Or.inl rfl
      · exact Or.inr h2

theorem mem_sortByCloseDesc {x : VariableMatch} {ms : List VariableMatch} :
    x ∈ sortByCloseDesc ms → x ∈ ms := by
  induction ms with
  | nil => intro h; simp [sortByCloseDesc] at h
  | cons m ms ih =>
    intro h
    rcases mem_insertByCloseDesc h with rfl | h2
    · exact List.mem_cons_self _ _
    · exact List.mem_cons_of_mem _ (ih h2)

theorem insertByCloseDesc_all {m : VariableMatch} {l : List VariableMatch}
    (h : ∀ x ∈ l, m.closeQuoteIndex ≤ x.closeQuoteIndex) :
    insertByCloseDesc m l = l ++ [m] := by
  induction l with
  | nil => rfl
  | cons a l ih =>
    rw [insertByCloseDesc, if_pos (h a (List.mem_cons_self _ _))]
    rw [ih fun x hx => h x (List.mem_cons_of_mem _ hx)]
    rfl

/-- When the input's close-quote indices are strictly increasing, the
descending sort is exactly the reverse of the input. -/
theorem sortByCloseDesc_eq_reverse {ms : List VariableMatch}
    (h : ms.Pairwise (fun a b => a.closeQuoteIndex < b.closeQuoteIndex)) :
    sortByCloseDesc ms = ms.reverse := by
  induction ms with
  | nil => rfl
  | cons m ms ih =>
    rw [sortByCloseDesc, ih (List.Pairwise.of_cons h), insertByCloseDesc_all, List.reverse_cons]
    intro x hx
    have := (List.pairwise_cons.mp h).1 x (mem_sortByCloseDesc (by
      rw [ih (List.Pairwise.of_cons h)]; exact hx))
    omega

/-- The deletion plan read in ascending text order: for each match (in found
order) its open-quote index then its close-quote index. -/
def ascPlan (ms : List VariableMatch) : List Nat :=
  ms.flatMap (fun m => [m.openQuoteIndex, m.closeQuoteIndex])

theorem ascPlan_chain :
    ∀ (fuel : Nat) (l : List Char) (pos : Nat),
      List.Chain' (· < ·) (ascPlan (findQuotedAux fuel l pos)) := by
  have key : ∀ ms : List VariableMatch,
      List.Chain' (fun a b : VariableMatch =>
        a.closeQuoteIndex < b.openQuoteIndex ∧ a.closeQuoteIndex < b.closeQuoteIndex) ms →
      (∀ m ∈ ms, m.openQuoteIndex < m.closeQuoteIndex) →
      List.Chain' (· < ·) (ascPlan ms) := by
    intro ms
    induction ms with
    | nil => intro _ _; simp [ascPlan]
    | cons m ms ih =>
      intro hch hoc
      have htail : List.Chain' (· < ·) (ascPlan ms) :=
        ih hch.tail fun x hx => hoc x (List.mem_cons_of_mem _ hx)
      have h1 : m.openQuoteIndex < m.closeQuoteIndex := hoc m (List.mem_cons_self _ _)
      match ms with
      | [] => simpa [ascPlan] using h1
      | m2 :: ms2 =>
        have h2 : m.closeQuoteIndex < m2.openQuoteIndex :=
          (List.chain'_cons.mp hch).1.1
        simp only [ascPlan, List.flatMap_cons] at htail ⊢
        exact List.Chain'.cons h1 (List.Chain'.cons h2 htail)
  intro fuel l pos
  refine key _ (findQuotedAux_chain fuel l pos) fun m hm => ?_
  obtain ⟨_, h2, _, _, _⟩ := findQuotedAux_spec _ _ _ _ hm
  omega

theorem repairPlan_eq_reverse_ascPlan {t : List Char} :
    repairPlan (findQuotedVariablesWithPositions t) =
      (ascPlan (findQuotedVariablesWithPositions t)).reverse := by
  have hpair : (findQuotedVariablesWithPositions t).Pairwise
      (fun a b => a.closeQuoteIndex < b.closeQuoteIndex) := by
    have := findQuotedAux_chain t.length t 0
    have h2 := List.Chain'.imp
      (fun (a b : VariableMatch) (hab : a.closeQuoteIndex < b.openQuoteIndex ∧
        a.closeQuoteIndex < b.closeQuoteIndex) => hab.2) this
    haveI : IsTrans VariableMatch (fun a b => a.closeQuoteIndex < b.closeQuoteIndex) :=
      ⟨fun _ _ _ h1 h2 => lt_trans h1 h2⟩
    exact List.chain'_iff_pairwise.mp h2
  rw [repairPlan, sortByCloseDesc_eq_reverse hpair]
  generalize findQuotedVariablesWithPositions t = ms
  induction ms with
  | nil => rfl
  | cons m ms ih =>
    simp only [List.reverse_cons, List.flatMap_append, ascPlan, List.flatMap_cons,
      List.reverse_append]
    rw [← ascPlan]
    rw [ih]
    simp [ascPlan]

theorem repairPlan_pairwise_gt {t : List Char} :
    (repairPlan (findQuotedVariablesWithPositions t)).Pairwise (· > ·) := by
  rw [repairPlan_eq_reverse_ascPlan, List.pairwise_reverse]
  exact (List.chain'_iff_pairwise.mp (ascPlan_chain t.length t 0)).imp fun hab => hab

/-- Every planned deletion index is in range and points at a quote
character of the snapshot text. -/
theorem repairPlan_mem {t : List Char} {i : Nat}
    (h : i ∈ repairPlan (findQuotedVariablesWithPositions t)) :
    i < t.length ∧ isQuoteChar (t.getD i 'x') = true := by
  rw [repairPlan] at h
  obtain ⟨m, hm, hi⟩ := List.mem_flatMap.mp h
  have hm' : m ∈ findQuotedVariablesWithPositions t := mem_sortByCloseDesc hm
  obtain ⟨h1, h2, h3, h4, h5⟩ := findQuotedAux_spec _ _ _ _ hm'
  simp only [List.mem_cons, List.mem_singleton] at hi
  simp only [Nat.sub_zero, Nat.zero_add] at h3 h4 h5
  rcases hi with rfl | rfl | hfalse
  · exact ⟨h3, h5⟩
  · exact ⟨by omega, h4⟩
  · exact absurd hfalse (List.not_mem_nil _)

/-! ## Correctness of the descending batch against the stale map -/

theorem removeCharAtOffset_eq_eraseIdx (t : List Char) (i : Nat) :
    removeCharAtOffset t i = t.eraseIdx i := by
  rw [removeCharAtOffset, List.eraseIdx_eq_take_drop_succ]
  split
  · rfl
  · rw [List.take_of_length_le (by omega), List.drop_of_length_le (by omega),
      List.append_nil]

/-- Deleting at a global index of the concatenated runs: the flat
counterpart of `deleteCharAt` against a freshly built map. -/
def deleteFlat : List (List Char) → Nat → List (List Char)
  | [], _ => []
  | r :: rs, i => if i < r.length then r.eraseIdx i :: rs else r :: deleteFlat rs (i - r.length)

theorem map_text_buildTextMapAux (runs : List (List Char)) :
    ∀ n, (buildTextMapAux n runs).map MapEntry.text = runs := by
  induction runs with
  | nil => intro n; rfl
  | cons r rs ih =>
    intro n
    rw [buildTextMapAux]
    simp only [List.map_cons]
    rw [ih]

theorem deleteCharAt_buildTextMapAux (runs : List (List Char)) :
    ∀ (n i : Nat),
      (deleteCharAt (buildTextMapAux n runs) (n + i)).map MapEntry.text =
        deleteFlat runs i := by
  induction runs with
  | nil => intro n i; simp [buildTextMapAux, deleteCharAt, deleteFlat]
  | cons r rs ih =>
    intro n i
    rw [buildTextMapAux, deleteCharAt, deleteFlat]
    dsimp only
    by_cases h : i < r.length
    · rw [if_pos (⟨by omega, by omega⟩ : n ≤ n + i ∧ n + i < n + r.length), if_pos h]
      simp only [List.map_cons]
      rw [removeCharAtOffset_eq_eraseIdx, map_text_buildTextMapAux]
      congr 2
      omega
    · rw [if_neg (by omega), if_neg h]
      simp only [List.map_cons]
      have hsplit : n + i = (n + r.length) + (i - r.length) := by omega
      rw [hsplit, ih]

theorem oracleDeleteOnce_eq_deleteFlat (runs : List (List Char)) (i : Nat) :
    oracleDeleteOnce runs i = deleteFlat runs i := by
  have := deleteCharAt_buildTextMapAux runs 0 i
  simpa [oracleDeleteOnce, buildTextMap] using this

theorem oracleApply_eq_foldl (plan : List Nat) :
    ∀ runs : List (List Char), plan.Pairwise (· > ·) →
      oracleApply runs plan = plan.foldl deleteFlat runs := by
  induction plan with
  | nil => intro runs _; rw [oracleApply]; rfl
  | cons i is ih =>
    intro runs hp
    rw [oracleApply, List.foldl_cons, oracleDeleteOnce_eq_deleteFlat]
    have hmap : is.map (adjustIndex i) = is := by
      conv_rhs => rw [← List.map_id is]
      refine List.map_congr_left fun j hj => ?_
      have hj2 : j < i := (List.pairwise_cons.mp hp).1 j hj
      simp only [adjustIndex, id]
      rw [if_neg (by omega)]
    rw [hmap]
    exact ih _ (List.Pairwise.of_cons hp)

theorem foldl_deleteCharAt_nil (plan : List Nat) :
    plan.foldl deleteCharAt [] = [] := by
  induction plan with
  | nil => rfl
  | cons i is ih => rw [List.foldl_cons, deleteCharAt]; exact ih

/-- Indices at or beyond an entry's recorded end pass it by untouched. -/
theorem foldl_deleteCharAt_high {e : MapEntry} {E : List MapEntry} (hs : List Nat)
    (h : ∀ i ∈ hs, e.endIndex ≤ i) :
    hs.foldl deleteCharAt (e :: E) = e :: hs.foldl deleteCharAt E := by
  induction hs generalizing E with
  | nil => rfl
  | cons i is ih =>
    rw [List.foldl_cons, List.foldl_cons, deleteCharAt,
      if_neg (by have := h i (List.mem_cons_self _ _); omega)]
    exact ih fun j hj => h j (List.mem_cons_of_mem _ hj)

/-- Indices inside an entry's recorded span always hit that entry (the
recorded span is stale: it never shrinks), leaving the tail untouched. -/
theorem foldl_deleteCharAt_low {n mstop : Nat} {E : List MapEntry} (ls : List Nat)
    (h : ∀ i ∈ ls, n ≤ i ∧ i < mstop) (t : List Char) :
    ls.foldl deleteCharAt (⟨n, mstop, t⟩ :: E) =
      ⟨n, mstop, ls.foldl (fun tx i => removeCharAtOffset tx (i - n)) t⟩ :: E := by
  induction ls generalizing t with
  | nil => rfl
  | cons i is ih =>
    rw [List.foldl_cons, deleteCharAt,
      if_pos (by exact h i (List.mem_cons_self _ _)), List.foldl_cons]
    exact ih (fun j hj => h j (List.mem_cons_of_mem _ hj)) _

theorem foldl_deleteFlat_nil (plan : List Nat) :
    plan.foldl deleteFlat [] = [] := by
  induction plan with
  | nil => rfl
  | cons i is ih => rw [List.foldl_cons, deleteFlat]; exact ih

theorem foldl_deleteFlat_high {r : List Char} {rs : List (List Char)} (hs : List Nat)
    (h : ∀ i ∈ hs, r.length ≤ i) :
    hs.foldl deleteFlat (r :: rs) =
      r :: (hs.map (· - r.length)).foldl deleteFlat rs := by
  induction hs generalizing rs with
  | nil => rfl
  | cons i is ih =>
    rw [List.foldl_cons, deleteFlat,
      if_neg (by have := h i (List.mem_cons_self _ _); omega), List.map_cons,
      List.foldl_cons]
    exact ih fun j hj => h j (List.mem_cons_of_mem _ hj)

theorem foldl_deleteFlat_low {rs : List (List Char)} (ls : List Nat) (t : List Char)
    (hp : ls.Pairwise (· > ·)) (h : ∀ i ∈ ls, i < t.length) :
    ls.foldl deleteFlat (t :: rs) = ls.foldl List.eraseIdx t :: rs := by
  induction ls generalizing t with
  | nil => rfl
  | cons i is ih =>
    have hi : i < t.length := h i (List.mem_cons_self _ _)
    rw [List.foldl_cons, deleteFlat, if_pos hi, List.foldl_cons]
    refine ih _ (List.Pairwise.of_cons hp) fun j hj => ?_
    have h1 : j < i := (List.pairwise_cons.mp hp).1 j hj
    have h2 : (t.eraseIdx i).length = t.length - 1 := by
      rw [List.length_eraseIdx]
      simp [hi]
    omega

/-- The sorted descending batch of stale-map deletions computes, run by run,
exactly the flat deletions at the planned global indices. -/
theorem map_text_foldl_deleteCharAt :
    ∀ (R : List (List Char)) (n : Nat) (plan : List Nat),
      plan.Pairwise (· > ·) → (∀ i ∈ plan, n ≤ i) →
      (plan.foldl deleteCharAt (buildTextMapAux n R)).map MapEntry.text =
        (plan.map (· - n)).foldl deleteFlat R := by
  intro R
  induction R with
  | nil =>
    intro n plan _ _
    rw [buildTextMapAux, foldl_deleteCharAt_nil, foldl_deleteFlat_nil]
    rfl
  | cons r rs ih =>
    intro n plan hp hge
    have hsplit : plan = plan.takeWhile (fun i => decide (n + r.length ≤ i)) ++
        plan.dropWhile (fun i => decide (n + r.length ≤ i)) :=
      (List.takeWhile_append_dropWhile _ _).symm
    have hhs_mem : ∀ i ∈ plan.takeWhile (fun i => decide (n + r.length ≤ i)),
        n + r.length ≤ i := by
      intro i hi
      have := List.mem_takeWhile_imp hi
      simpa using this
    have hls_sub : ∀ i ∈ plan.dropWhile (fun i => decide (n + r.length ≤ i)), i ∈ plan := by
      intro i hi
      rw [hsplit]
      exact List.mem_append_right _ hi
    have hhs_sub : ∀ i ∈ plan.takeWhile (fun i => decide (n + r.length ≤ i)), i ∈ plan := by
      intro i hi
      rw [hsplit]
      exact List.mem_append_left _ hi
    have hpls : (plan.dropWhile (fun i => decide (n + r.length ≤ i))).Pairwise (· > ·) := by
      conv at hp => rw [hsplit]
      exact (List.pairwise_append.mp hp).2.1
    have hphs : (plan.takeWhile (fun i => decide (n + r.length ≤ i))).Pairwise (· > ·) := by
      conv at hp => rw [hsplit]
      exact (List.pairwise_append.mp hp).1
    have hls_lt : ∀ i ∈ plan.dropWhile (fun i => decide (n + r.length ≤ i)),
        i < n + r.length := by
      intro i hi
      have hhead := List.head?_dropWhile_not (fun i => decide (n + r.length ≤ i)) plan
      cases hdw : plan.dropWhile (fun i => decide (n + r.length ≤ i)) with
      | nil => rw [hdw] at hi; exact absurd hi (List.not_mem_nil _)
      | cons a ls2 =>
        rw [hdw] at hhead hi
        simp only [List.head?_cons, decide_eq_false_iff_not, not_le] at hhead
        rcases List.mem_cons.mp hi with rfl | hi2
        · exact hhead
        · have hp2 := hpls
          rw [hdw] at hp2
          have := (List.pairwise_cons.mp hp2).1 i hi2
          omega
    conv_lhs => rw [hsplit]
    conv_rhs => rw [hsplit]
    rw [buildTextMapAux, List.foldl_append,
      foldl_deleteCharAt_high _ hhs_mem,
      foldl_deleteCharAt_low _ (fun i hi => ⟨hge i (hls_sub i hi), hls_lt i hi⟩)]
    rw [List.map_append, List.foldl_append,
      foldl_deleteFlat_high _
        (by intro j hj; obtain ⟨i, hi, rfl⟩ := List.mem_map.mp hj
            have := hhs_mem i hi; omega)]
    rw [foldl_deleteFlat_low _ r
      (by
        refine List.pairwise_map.mpr (hpls.imp_of_mem ?_)
        intro a b ha hb hab
        have := hge a (hls_sub a ha)
        have := hge b (hls_sub b hb)
        omega)
      (by intro j hj; obtain ⟨i, hi, rfl⟩ := List.mem_map.mp hj
          have h1 := hls_lt i hi
          have h2 := hge i (hls_sub i hi)
          omega)]
    simp only [List.map_cons]
    congr 1
    · simp only [removeCharAtOffset_eq_eraseIdx, List.foldl_map]
    · rw [ih (n + r.length) _ hphs hhs_mem, List.map_map]
      refine congrArg (fun l => List.foldl deleteFlat rs l) ?_
      refine List.map_congr_left fun i _ => ?_
      simp [Nat.sub_sub]

theorem foldl_applyMatchDeletions (ms : List VariableMatch) :
    ∀ E : List MapEntry,
      ms.foldl applyMatchDeletions E =
        (ms.flatMap (fun m => [m.closeQuoteIndex, m.openQuoteIndex])).foldl deleteCharAt E := by
  induction ms with
  | nil => intro E; rfl
  | cons m ms ih =>
    intro E
    rw [List.foldl_cons, List.flatMap_cons, List.foldl_append, ih]
    rfl

/-- The whole repair equals the fold of flat deletions over the plan. -/
theorem repairRuns_eq_foldl_deleteFlat (runs : List (List Char)) :
    repairRuns runs =
      (repairPlan (findQuotedVariablesWithPositions runs.flatten)).foldl deleteFlat runs := by
  rw [repairRuns]
  by_cases h : findQuotedVariablesWithPositions runs.flatten = []
  · rw [h]
    simp [repairPlan, sortByCloseDesc]
  · rw [if_neg (by simpa [List.isEmpty_iff] using h)]
    rw [foldl_applyMatchDeletions, buildTextMap, ← repairPlan]
    have := map_text_foldl_deleteCharAt runs 0
      (repairPlan (findQuotedVariablesWithPositions runs.flatten))
      repairPlan_pairwise_gt (fun i _ => Nat.zero_le i)
    rw [this]
    congr 1
    refine (List.map_congr_left fun i _ => ?_).trans (List.map_id _)
    simp

/-- C1.  For every document part (a list of run texts) the production
procedure — one immutable snapshot of the concatenated text, matches found
on it once, the two quote deletions of each match applied in descending
order of close-quote index (close before open) against the original,
never-rebuilt text map — produces exactly the same final run texts as the
naive oracle that, after every single character deletion, rebuilds the text
map from the current runs and recomputes all remaining planned positions
against the new text. -/
theorem repair_descending_batch_matches_fresh_rebuild_oracle (runs : List (List Char)) :
    repairRuns runs =
      oracleApply runs (repairPlan (findQuotedVariablesWithPositions runs.flatten)) := by
  rw [repairRuns_eq_foldl_deleteFlat,
    oracleApply_eq_foldl _ runs repairPlan_pairwise_gt]

/-! ## Characterising the repair as removal of an index set -/

/-- Remove from `t` (whose first element has absolute position `p`) every
character whose absolute position is listed in `S`. -/
def removeIdxsAux (S : List Nat) : Nat → List Char → List Char
  | _, [] => []
  | p, c :: cs => if p ∈ S then removeIdxsAux S (p + 1) cs else c :: removeIdxsAux S (p + 1) cs

theorem removeIdxsAux_all_lt {S : List Nat} :
    ∀ (t : List Char) (p : Nat), (∀ j ∈ S, j < p) → removeIdxsAux S p t = t := by
  intro t
  induction t with
  | nil => intro p _; rfl
  | cons c cs ih =>
    intro p h
    rw [removeIdxsAux, if_neg (fun hmem => by have := h p hmem; omega)]
    rw [ih (p + 1) (fun j hj => by have := h j hj; omega)]

theorem removeIdxsAux_untouched {S : List Nat} :
    ∀ (t : List Char) (p : Nat), (∀ j ∈ S, j < p ∨ p + t.length ≤ j) →
      removeIdxsAux S p t = t := by
  intro t
  induction t with
  | nil => intro p _; rfl
  | cons c cs ih =>
    intro p h
    rw [removeIdxsAux, if_neg (fun hmem => by
      rcases h p hmem with h1 | h1
      · omega
      · simp only [List.length_cons] at h1; omega)]
    rw [ih (p + 1) (fun j hj => by rcases h j hj with h1 | h1
                                   · exact Or.inl (by omega)
                                   · exact Or.inr (by simp at h1 ⊢; omega))]

theorem removeIdxsAux_append {S : List Nat} :
    ∀ (u v : List Char) (p : Nat),
      removeIdxsAux S p (u ++ v) =
        removeIdxsAux S p u ++ removeIdxsAux S (p + u.length) v := by
  intro u
  induction u with
  | nil => intro v p; simp [removeIdxsAux]
  | cons c cs ih =>
    intro v p
    rw [List.cons_append, removeIdxsAux, removeIdxsAux]
    by_cases h : p ∈ S
    · rw [if_pos h, if_pos h, ih]
      congr 2
      simp; omega
    · rw [if_neg h, if_neg h, List.cons_append, ih]
      congr 3
      simp; omega

theorem removeIdxsAux_eraseIdx {i : Nat} {S : List Nat} (hS : ∀ j ∈ S, j < i) :
    ∀ (t : List Char) (p : Nat), p ≤ i →
      removeIdxsAux S p (t.eraseIdx (i - p)) = removeIdxsAux (i :: S) p t := by
  intro t
  induction t with
  | nil => intro p _; rfl
  | cons c cs ih =>
    intro p hpi
    by_cases hip : i = p
    · subst hip
      rw [Nat.sub_self, List.eraseIdx_cons_zero]
      rw [show removeIdxsAux (i :: S) i (c :: cs) = removeIdxsAux (i :: S) (i + 1) cs by
        rw [removeIdxsAux, if_pos (List.mem_cons_self _ _)]]
      rw [removeIdxsAux_all_lt cs (i + 1) (fun j hj => by
        rcases List.mem_cons.mp hj with rfl | hj2
        · omega
        · have := hS j hj2; omega)]
      rw [removeIdxsAux_all_lt cs i (fun j hj => by have := hS j hj; omega)]
    · have hpi' : p < i := by omega
      have hsub : i - p = (i - (p + 1)) + 1 := by omega
      rw [hsub, List.eraseIdx_cons_succ, removeIdxsAux, removeIdxsAux]
      by_cases h : p ∈ S
      · rw [if_pos h, if_pos (List.mem_cons_of_mem _ h), ih (p + 1) (by omega)]
      · rw [if_neg h, if_neg (fun hmem2 => by
          rcases List.mem_cons.mp hmem2 with rfl | h2
          · omega
          · exact h h2), ih (p + 1) (by omega)]

/-- A strictly descending fold of `eraseIdx` removes exactly the listed
positions of the original text. -/
theorem foldl_eraseIdx_eq_removeIdxs {plan : List Nat} (hp : plan.Pairwise (· > ·)) :
    ∀ t : List Char, plan.foldl List.eraseIdx t = removeIdxsAux plan 0 t := by
  induction plan with
  | nil => intro t; rw [List.foldl_nil, removeIdxsAux_all_lt t 0 (by simp)]
  | cons i is ih =>
    intro t
    rw [List.foldl_cons, ih (List.Pairwise.of_cons hp)]
    have := removeIdxsAux_eraseIdx (S := is) (i := i)
      (fun j hj => (List.pairwise_cons.mp hp).1 j hj) t 0 (Nat.zero_le i)
    simpa using this

theorem length_foldl_eraseIdx {plan : List Nat} :
    ∀ t : List Char, plan.Pairwise (· > ·) → (∀ i ∈ plan, i < t.length) →
      (plan.foldl List.eraseIdx t).length + plan.length = t.length := by
  induction plan with
  | nil => intro t _ _; rfl
  | cons i is ih =>
    intro t hp hb
    have hi : i < t.length := hb i (List.mem_cons_self _ _)
    have hlen : (t.eraseIdx i).length = t.length - 1 := by
      rw [List.length_eraseIdx]; simp [hi]
    rw [List.foldl_cons]
    have := ih (t.eraseIdx i) (List.Pairwise.of_cons hp) (fun j hj => by
      have h1 : j < i := (List.pairwise_cons.mp hp).1 j hj
      omega)
    simp only [List.length_cons]
    omega

theorem flatten_deleteFlat :
    ∀ (R : List (List Char)) (i : Nat), (deleteFlat R i).flatten = R.flatten.eraseIdx i := by
  intro R
  induction R with
  | nil => intro i; simp [deleteFlat]
  | cons r rs ih =>
    intro i
    rw [deleteFlat]
    by_cases h : i < r.length
    · rw [if_pos h]
      simp only [List.flatten_cons]
      rw [List.eraseIdx_append_of_lt_length h]
    · rw [if_neg h]
      simp only [List.flatten_cons]
      rw [ih, List.eraseIdx_append_of_length_le (by omega)]

theorem flatten_foldl_deleteFlat (plan : List Nat) :
    ∀ R : List (List Char), (plan.foldl deleteFlat R).flatten = plan.foldl List.eraseIdx R.flatten := by
  induction plan with
  | nil => intro R; rfl
  | cons i is ih =>
    intro R
    rw [List.foldl_cons, List.foldl_cons, ih, flatten_deleteFlat]

/-- The shape of a bracket token `[NAME]`: `[`, an identifier
(`[A-Za-z][A-Za-z0-9_]*`), `]`. -/
def isIdentName : List Char → Bool
  | [] => false
  | c :: cs => isAsciiLetter c && cs.all isIdentTail

theorem isQuoteChar_elim {c : Char} (h : isQuoteChar c = true) :
    c = '"' ∨ c = '“' ∨ c = '”' := by
  simpa [isQuoteChar, or_assoc] using h

theorem not_quote_of_isAsciiLetter {c : Char} (h : isAsciiLetter c = true) :
    isQuoteChar c = false := by
  rcases Bool.eq_false_or_eq_true (isQuoteChar c) with h2 | h2
  · rcases isQuoteChar_elim h2 with rfl | rfl | rfl <;> simp [isAsciiLetter] at h
  · exact h2

theorem not_quote_of_isIdentTail {c : Char} (h : isIdentTail c = true) :
    isQuoteChar c = false := by
  rcases Bool.eq_false_or_eq_true (isQuoteChar c) with h2 | h2
  · rcases isQuoteChar_elim h2 with rfl | rfl | rfl <;>
      simp [isIdentTail, isAsciiLetter] at h
  · exact h2

/-- No character of a bracket token `[NAME]` is a quote character. -/
theorem bracket_token_chars_not_quote {name : List Char} {c : Char}
    (hname : isIdentName name = true) (hc : c ∈ '[' :: (name ++ [']'])) :
    isQuoteChar c = false := by
  rcases List.mem_cons.mp hc with rfl | hc2
  · rfl
  rcases List.mem_append.mp hc2 with hc3 | hc3
  · match name, hname with
    | c0 :: cs, hname =>
      have hparts : isAsciiLetter c0 = true ∧ ∀ x ∈ cs, isIdentTail x = true := by
        simpa [isIdentName] using hname
      rcases List.mem_cons.mp hc3 with rfl | hc4
      · exact not_quote_of_isAsciiLetter hparts.1
      · exact not_quote_of_isIdentTail (hparts.2 c hc4)
  · rcases List.mem_singleton.mp hc3 with rfl
    rfl

theorem length_insertByCloseDesc (m : VariableMatch) :
    ∀ l, (insertByCloseDesc m l).length = l.length + 1 := by
  intro l
  induction l with
  | nil => rfl
  | cons a l ih =>
    rw [insertByCloseDesc]
    split
    · simp only [List.length_cons, ih]
    · simp

theorem length_sortByCloseDesc :
    ∀ ms : List VariableMatch, (sortByCloseDesc ms).length = ms.length := by
  intro ms
  induction ms with
  | nil => rfl
  | cons m ms ih => rw [sortByCloseDesc, length_insertByCloseDesc, ih]; rfl

theorem length_repairPlan (ms : List VariableMatch) :
    (repairPlan ms).length = 2 * ms.length := by
  rw [repairPlan]
  rw [show (sortByCloseDesc ms).flatMap (fun m => [m.closeQuoteIndex, m.openQuoteIndex]) =
    (sortByCloseDesc ms).flatMap (fun m => [m.closeQuoteIndex, m.openQuoteIndex]) from rfl]
  have : ∀ l : List VariableMatch,
      (l.flatMap (fun m => [m.closeQuoteIndex, m.openQuoteIndex])).length = 2 * l.length := by
    intro l
    induction l with
    | nil => rfl
    | cons x l ih => simp only [List.flatMap_cons, List.length_append, ih]; simp; omega
  rw [this, length_sortByCloseDesc]

/-- Removal of an index set that avoids `[a, b)` keeps that segment of the
text byte-identical and contiguous. -/
theorem removeIdxsAux_segment {t : List Char} {plan : List Nat} {a b : Nat}
    (hab : a ≤ b) (hbl : b ≤ t.length)
    (hdisj : ∀ i ∈ plan, i < a ∨ b ≤ i) :
    removeIdxsAux plan 0 t =
      removeIdxsAux plan 0 (t.take a) ++ ((t.drop a).take (b - a) ++
        removeIdxsAux plan b (t.drop b)) := by
  have hdd : (t.drop a).drop (b - a) = t.drop b := by
    rw [List.drop_drop]
    congr 1
    omega
  have hsplit : t = t.take a ++ ((t.drop a).take (b - a) ++ t.drop b) := by
    conv_lhs => rw [← List.take_append_drop a t]
    congr 1
    conv_lhs => rw [← List.take_append_drop (b - a) (t.drop a)]
    rw [hdd]
  conv_lhs => rw [hsplit]
  rw [removeIdxsAux_append, removeIdxsAux_append]
  have hlen1 : (t.take a).length = a := by
    rw [List.length_take]
    omega
  have hlen2 : ((t.drop a).take (b - a)).length = b - a := by
    rw [List.length_take, List.length_drop]
    omega
  rw [hlen1, hlen2]
  have hpos1 : 0 + a = a := by omega
  have hpos2 : a + (b - a) = b := by omega
  rw [hpos1, hpos2]
  congr 2
  exact removeIdxsAux_untouched _ a fun j hj => by
    rcases hdisj j hj with h1 | h1
    · exact Or.inl h1
    · exact Or.inr (by rw [hlen2]; omega)

/-- C2.  For a document part whose concatenated run text contains `n`
quoted placeholder matches, the repair deletes exactly `2·n` characters:
the final text is the snapshot text with precisely the planned open-quote
and close-quote positions removed (conjunct 1), its length is the original
length minus `2·n` (conjunct 2), every deleted position is in range and
holds a quote glyph (conjunct 3), the `2·n` deleted positions are distinct
(conjunct 4), and every bracket-token occurrence `[NAME]` — in particular
every unquoted one, singled out by the hypothesis that no match's `[` sits
at its start — survives byte-identical and contiguous in the output
(conjunct 5). -/
theorem repair_removes_exactly_quote_pairs (runs : List (List Char)) :
    (repairRuns runs).flatten =
        removeIdxsAux (repairPlan (findQuotedVariablesWithPositions runs.flatten)) 0
          runs.flatten ∧
    (repairRuns runs).flatten.length +
        2 * (findQuotedVariablesWithPositions runs.flatten).length = runs.flatten.length ∧
    (∀ i ∈ repairPlan (findQuotedVariablesWithPositions runs.flatten),
        i < runs.flatten.length ∧ isQuoteChar (runs.flatten.getD i 'x') = true) ∧
    (repairPlan (findQuotedVariablesWithPositions runs.flatten)).Nodup ∧
    (∀ a b : Nat, ∀ name : List Char, a ≤ b → b ≤ runs.flatten.length →
      isIdentName name = true →
      (runs.flatten.drop a).take (b - a) = '[' :: (name ++ [']']) →
      (∀ m ∈ findQuotedVariablesWithPositions runs.flatten, m.openQuoteIndex + 1 ≠ a) →
      (repairRuns runs).flatten =
        removeIdxsAux (repairPlan (findQuotedVariablesWithPositions runs.flatten)) 0
          (runs.flatten.take a) ++
        ((runs.flatten.drop a).take (b - a) ++
          removeIdxsAux (repairPlan (findQuotedVariablesWithPositions runs.flatten)) b
            (runs.flatten.drop b))) := by
  have hflat : (repairRuns runs).flatten =
      (repairPlan (findQuotedVariablesWithPositions runs.flatten)).foldl List.eraseIdx
        runs.flatten := by
    rw [repairRuns_eq_foldl_deleteFlat, flatten_foldl_deleteFlat]
  have hrem : (repairRuns runs).flatten =
      removeIdxsAux (repairPlan (findQuotedVariablesWithPositions runs.flatten)) 0
        runs.flatten := by
    rw [hflat, foldl_eraseIdx_eq_removeIdxs repairPlan_pairwise_gt]
  refine ⟨hrem, ?_, fun i hi => repairPlan_mem hi, ?_, ?_⟩
  · rw [hflat]
    have := length_foldl_eraseIdx runs.flatten repairPlan_pairwise_gt
      (fun i hi => (repairPlan_mem hi).1)
    rw [length_repairPlan] at this
    omega
  · exact repairPlan_pairwise_gt.imp fun hab => by omega
  · intro a b name hab hbl hname hseg hnom
    have hdisj : ∀ i ∈ repairPlan (findQuotedVariablesWithPositions runs.flatten),
        i < a ∨ b ≤ i := by
      intro i hi
      by_contra hcon
      push_neg at hcon
      obtain ⟨hia, hib⟩ := hcon
      obtain ⟨hilen, hiq⟩ := repairPlan_mem hi
      have hgetd : runs.flatten.getD i 'x' =
          ((runs.flatten.drop a).take (b - a)).getD (i - a) 'x' := by
        rw [List.getD_eq_getElem?_getD, List.getD_eq_getElem?_getD,
          List.getElem?_take_of_lt (show i - a < b - a by omega), List.getElem?_drop]
        have heq : a + (i - a) = i := by omega
        rw [heq]
      have hlseg : ((runs.flatten.drop a).take (b - a)).length = b - a := by
        rw [List.length_take, List.length_drop]
        exact min_eq_left (by omega)
      have hmem : runs.flatten.getD i 'x' ∈ '[' :: (name ++ [']']) := by
        rw [hgetd, hseg, List.getD_eq_getElem?_getD]
        have hlt : i - a < ('[' :: (name ++ [']'])).length := by
          rw [← hseg, hlseg]
          omega
        rw [List.getElem?_eq_getElem hlt]
        exact List.getElem_mem _
      have hcontra := bracket_token_chars_not_quote hname hmem
      rw [hiq] at hcontra
      exact Bool.noConfusion hcontra
    rw [hrem]
    exact removeIdxsAux_segment hab hbl hdisj

/-- Witness for C2's hypothesis-bearing conjunct: on the part made of the
two runs `x"[NA`, `ME]" [RAW] y` the repair removes only the two quotes,
and the unquoted occurrence `[RAW]` (at positions 11..15 of the snapshot)
survives byte-identically. -/
theorem repair_removes_exactly_quote_pairs_witness :
    ((repairRuns [['x', '"', '[', 'N', 'A'], ['M', 'E', ']', '"', ' ', '[', 'R', 'A', 'W', ']',
        ' ', 'y']]).flatten =
      removeIdxsAux (repairPlan (findQuotedVariablesWithPositions
        ([['x', '"', '[', 'N', 'A'], ['M', 'E', ']', '"', ' ', '[', 'R', 'A', 'W', ']',
          ' ', 'y']] : List (List Char)).flatten)) 0
        ([['x', '"', '[', 'N', 'A'], ['M', 'E', ']', '"', ' ', '[', 'R', 'A', 'W', ']',
          ' ', 'y']] : List (List Char)).flatten) ∧
    (repairRuns [['x', '"', '[', 'N', 'A'], ['M', 'E', ']', '"', ' ', '[', 'R', 'A', 'W', ']',
        ' ', 'y']]).flatten =
      ['x', '[', 'N', 'A', 'M', 'E', ']', ' '] ++ (['[', 'R', 'A', 'W', ']'] ++ [' ', 'y']) := by
  constructor
  · exact (repair_removes_exactly_quote_pairs _).1
  · have h5 := (repair_removes_exactly_quote_pairs
      [['x', '"', '[', 'N', 'A'], ['M', 'E', ']', '"', ' ', '[', 'R', 'A', 'W', ']', ' ', 'y']]).2.2.2.2
      10 15 ['R', 'A', 'W'] (by decide) (by decide) (by decide) (by decide) (by decide)
    rw [h5]
    decide

theorem repairRuns_of_no_matches {runs : List (List Char)}
    (h : findQuotedVariablesWithPositions runs.flatten = []) :
    repairRuns runs = runs := by
  rw [repairRuns]
  rw [if_pos (by simp [h])]

/-- C3 (amended).  A second repair pass is a no-op whenever the output of
the first pass contains no quoted placeholder: if the matcher finds nothing
in the repaired text, the second pass returns its input unchanged.  (The
claim's premise — that the first pass always leaves no quoted placeholder —
fails in general; see the counterexample.) -/
theorem second_pass_noop_of_no_matches (runs : List (List Char))
    (h : findQuotedVariablesWithPositions (repairRuns runs).flatten = []) :
    repairRuns (repairRuns runs) = repairRuns runs :=
  repairRuns_of_no_matches h

/-- Witness for C3's amended statement at a concrete part. -/
theorem second_pass_noop_of_no_matches_witness :
    findQuotedVariablesWithPositions
        (repairRuns [['a', '"', '[', 'N', ']', '"', 'b']]).flatten = [] ∧
      repairRuns (repairRuns [['a', '"', '[', 'N', ']', '"', 'b']]) =
        repairRuns [['a', '"', '[', 'N', ']', '"', 'b']] :=
  ⟨by decide, second_pass_noop_of_no_matches _ (by decide)⟩

/-- Counterexample to C3 as stated: on the part `""[B]""` the first pass
deletes the inner quote pair, which makes the two leftover outer quotes
adjacent to the bracket token; the second pass therefore finds a fresh
quoted placeholder and deletes two more characters instead of being a
no-op. -/
theorem second_pass_not_noop_counterexample :
    findQuotedVariablesWithPositions
        (repairRuns [['"', '"', '[', 'B', ']', '"', '"']]).flatten ≠ [] ∧
      repairRuns (repairRuns [['"', '"', '[', 'B', ']', '"', '"']]) ≠
        repairRuns [['"', '"', '[', 'B', ']', '"', '"']] ∧
      repairRuns [['"', '"', '[', 'B', ']', '"', '"']] =
        [['"', '[', 'B', ']', '"']] ∧
      repairRuns (repairRuns [['"', '"', '[', 'B', ']', '"', '"']]) =
        [['[', 'B', ']']] := by
  refine ⟨by decide, by decide, by decide, by decide⟩

/-! ## JavaScript string helpers shared by the resolver and the pipeline -/

/-- Regex `\s` / `String.prototype.trim` whitespace (the classes met by the
engine's inputs: space, tab, LF, CR, VT, FF, NBSP). -/
def jsIsWhitespace (c : Char) : Bool :=
  c = ' ' || c = '\t' || c = '\n' || c = '\r' || c.toNat = 11 || c.toNat = 12 || c.toNat = 160

/-- `String.prototype.trim`. -/
def jsTrim (s : String) : String :=
  String.mk (((s.toList.dropWhile jsIsWhitespace).reverse.dropWhile jsIsWhitespace).reverse)

def jsToLowerCase (s : String) : String :=
  String.mk (s.toList.map jsToLowerChar)

def jsToUpperCase (s : String) : String :=
  String.mk (s.toList.map jsToUpperChar)

/-- `replace(/\s+/g, ' ')`: collapse every whitespace run to one space. -/
def collapseWSAux : Bool → List Char → List Char
  | _, [] => []
  | prevWs, c :: cs =>
    if jsIsWhitespace c then
      if prevWs then collapseWSAux true cs else ' ' :: collapseWSAux true cs
    else c :: collapseWSAux false cs

/-! ## `parseCSV` row shapes (lines 30-74) and `normalizeCourtName`
(lines 105-107)

`parseCSV` produces one object per line keyed by the header names, filling
missing columns with `''`, so a rule-table row and a court-info row are
total records of strings. -/

structure JurisdictionRule where
  ZipCode : String
  CaseType : String
  CourtName : String
  Condition : String
  Is_Default : String
deriving Repr, DecidableEq

structure CourtInfoRow where
  Courthouse : String
  Address : String
  District : String
deriving Repr, DecidableEq

/-- `normalizeCourtName(name)`: `(name || '').trim().toLowerCase().replace(/\s+/g, ' ')`. -/
def normalizeCourtName (name : String) : String :=
  String.mk (collapseWSAux false (jsToLowerCase (jsTrim name)).toList)

/-! ## `determineCourt` (lines 116-239) -/

/-- The union of the result-object shapes `determineCourt` returns; fields a
branch does not set keep their absent default. -/
structure CourtResult where
  success : Bool
  error : Option String := none
  courtName : Option String := none
  courtAddress : Option String := none
  courtDistrict : Option String := none
  needsSelection : Bool := false
  type : Option String := none
  options : List String := []
  defaultOption : Option String := none
  caseType : String
deriving Repr, DecidableEq

/-- `String(demandAmount).replace(/[^0-9.]/g, '')`. -/
def cleanAmountOf (s : String) : String :=
  String.mk (s.toList.filter (fun c => c.isDigit || c = '.'))

def digitsToNat (ds : List Char) : Nat :=
  ds.foldl (fun n c => n * 10 + (c.toNat - 48)) 0

/-- `parseFloat` on a string of digits and dots (the only shape the cleaning
step can produce): an optional integer part, then optionally a dot and a
fractional part, everything after a second dot ignored; no digit at all
gives `NaN` (`none`).  The value is modelled as the exact rational; every
comparison the engine performs (against `0` and `35000`) agrees with the
IEEE-double comparison for monetary inputs. -/
def parseFloatM (s : String) : Option Rat :=
  let cs := s.toList
  let intPart := cs.takeWhile Char.isDigit
  match cs.dropWhile Char.isDigit with
  | '.' :: rest2 =>
    let fracPart := rest2.takeWhile Char.isDigit
    if intPart.isEmpty && fracPart.isEmpty then none
    else some (mkRat (digitsToNat (intPart ++ fracPart)) (10 ^ fracPart.length))
  | _ => if intPart.isEmpty then none else some (mkRat (digitsToNat intPart) 1)

/-- Lines 122-126: `let amount = 0; if (demandAmount) { amount =
parseFloat(clean) }` — `none` models `NaN`. -/
def amountOf (demandAmount : String) : Option Rat :=
  if demandAmount ≠ "" then parseFloatM (cleanAmountOf demandAmount) else some 0

/-- Line 127: `(!isNaN(amount) && amount > 0 && amount <= 35000) ?
'Limited' : 'Unlimited'`. -/
def caseTypeOf (demandAmount : String) : String :=
  match amountOf demandAmount with
  | some amount => if 0 < amount ∧ amount ≤ 35000 then "Limited" else "Unlimited"
  | none => "Unlimited"

/-- The resolved-court object built (three times, lines 157-168, 180-191,
209-221) from a chosen rule row: look the court up in the court-info table
by normalised name and return `success` with its address and district. -/
def resolveCourtRow (courtInfo : List CourtInfoRow) (caseType courtName : String) :
    CourtResult :=
  let courtEntry := courtInfo.find?
    (fun row => normalizeCourtName row.Courthouse == normalizeCourtName courtName)
  { success := true
    courtName := some courtName
    courtAddress := some (match courtEntry with | some e => e.Address | none => "")
    courtDistrict := some (match courtEntry with | some e => e.District | none => "")
    caseType := jsToLowerCase caseType }

/-- `determineCourt(zipCode, demandAmount, citySelection)`, parameterised by
the two loaded tables.  `citySelection = none` models the `null` default;
`some ""` is falsy exactly like the source's truthiness test.
(`ms` is the source's `matches`; that word is reserved in Lean.) -/
def determineCourt (jurisdictionRules : List JurisdictionRule)
    (courtInfo : List CourtInfoRow) (zipCode demandAmount : String)
    (citySelection : Option String) : CourtResult :=
  let caseType := caseTypeOf demandAmount
  let ms := jurisdictionRules.filter
    (fun row => row.ZipCode == zipCode && row.CaseType == caseType)
  match ms with
  | [] =>
    { success := false
      error := some s!"ZIP code {zipCode} not found in court database for {caseType} cases"
      caseType := jsToLowerCase caseType }
  | [m] =>
    if m.CourtName = "" || m.CourtName = "nan" || jsTrim m.CourtName = "" then
      { success := false
        error := some s!"No court assigned for ZIP code {zipCode} ({caseType} cases)"
        caseType := jsToLowerCase caseType }
    else resolveCourtRow courtInfo caseType m.CourtName
  | _ :: _ :: _ =>
    let hasConditions := ms.any (fun (row : JurisdictionRule) =>
      row.Condition != "" && jsTrim row.Condition != "")
    if hasConditions then
      let selMatch := match citySelection with
        | some sel =>
          if sel ≠ "" then ms.find? (fun (row : JurisdictionRule) => row.Condition == sel)
          else none
        | none => none
      match selMatch with
      | some entry => resolveCourtRow courtInfo caseType entry.CourtName
      | none =>
        { success := false
          needsSelection := true
          type := some "split"
          options := (ms.map (fun (row : JurisdictionRule) => row.Condition)).filter
            (fun c => c != "" && jsTrim c != "")
          caseType := jsToLowerCase caseType }
    else
      let selMatch := match citySelection with
        | some sel =>
          if sel ≠ "" then ms.find? (fun (row : JurisdictionRule) => row.CourtName == sel)
          else none
        | none => none
      match selMatch with
      | some entry => resolveCourtRow courtInfo caseType entry.CourtName
      | none =>
        let options := ms.map (fun (row : JurisdictionRule) => row.CourtName)
        let defaultEntry := ms.find? (fun (row : JurisdictionRule) => row.Is_Default == "True")
        { success := false
          needsSelection := true
          type := some "choice"
          options := options
          defaultOption := some (match defaultEntry with
            | some e => e.CourtName
            | none => options.getD 0 "")
          caseType := jsToLowerCase caseType }

example : caseTypeOf "" = "Unlimited" := by decide
example : caseTypeOf "$0.00" = "Unlimited" := by decide
example : caseTypeOf "35000" = "Limited" := by decide
example : caseTypeOf "35000.01" = "Unlimited" := by decide
example : caseTypeOf "abc" = "Unlimited" := by decide

/-- C5.  The resolver's internal classification: an absent, unparsable, or
zero amount classifies as `Unlimited`; a parsed amount in `(0, 35000]`
classifies as `Limited`; a larger parsed amount as `Unlimited`.  The same
`caseType` value drives the rule-table filter inside `determineCourt` (by
definition of `determineCourt`) and is reported, lower-cased, in every
result the resolver returns. -/
theorem resolver_case_type_classification (demandAmount : String) :
    ((demandAmount = "" ∨ parseFloatM (cleanAmountOf demandAmount) = none ∨
        parseFloatM (cleanAmountOf demandAmount) = some 0) →
      caseTypeOf demandAmount = "Unlimited") ∧
    (∀ q : Rat, demandAmount ≠ "" → parseFloatM (cleanAmountOf demandAmount) = some q →
      0 < q → q ≤ 35000 → caseTypeOf demandAmount = "Limited") ∧
    (∀ q : Rat, demandAmount ≠ "" → parseFloatM (cleanAmountOf demandAmount) = some q →
      35000 < q → caseTypeOf demandAmount = "Unlimited") ∧
    (∀ (rules : List JurisdictionRule) (ci : List CourtInfoRow) (zip : String)
        (sel : Option String),
      (determineCourt rules ci zip demandAmount sel).caseType =
        jsToLowerCase (caseTypeOf demandAmount)) := by
  refine ⟨?_, ?_, ?_, ?_⟩
  · intro h
    rcases h with rfl | h | h
    · rw [caseTypeOf, amountOf, if_neg (by simp)]
      norm_num
    · by_cases hd : demandAmount = ""
      · subst hd
        rw [caseTypeOf, amountOf, if_neg (by simp)]
        norm_num
      · rw [caseTypeOf, amountOf, if_pos hd, h]
    · by_cases hd : demandAmount = ""
      · subst hd
        rw [caseTypeOf, amountOf, if_neg (by simp)]
        norm_num
      · rw [caseTypeOf, amountOf, if_pos hd, h]
        norm_num
  · intro q hne hq h0 h35
    rw [caseTypeOf, amountOf, if_pos hne, hq]
    exact if_pos ⟨h0, h35⟩
  · intro q hne hq h35
    rw [caseTypeOf, amountOf, if_pos hne, hq]
    exact if_neg (by rintro ⟨-, h⟩; exact absurd h (not_le.mpr h35))
  · intro rules ci zip sel
    simp only [determineCourt.eq_def]
    repeat' split
    all_goals rfl

/-- Witness for C5 at concrete amounts. -/
theorem resolver_case_type_classification_witness :
    caseTypeOf "" = "Unlimited" ∧ caseTypeOf "$12,500" = "Limited" ∧
      caseTypeOf "35000.01" = "Unlimited" ∧
      (determineCourt [] [] "90001" "35000.01" none).caseType = "unlimited" := by
  refine ⟨(resolver_case_type_classification "").1 (Or.inl rfl),
    (resolver_case_type_classification "$12,500").2.1 12500 (by decide) (by decide)
      (by decide) (by decide),
    (resolver_case_type_classification "35000.01").2.2.1 (mkRat 3500001 100) (by decide)
      (by decide) (by decide),
    ((resolver_case_type_classification "35000.01").2.2.2 [] [] "90001" none).trans
      (by decide)⟩

/-- C7 (amended).  When the postal-code/case-type filter leaves two or more
rows and at least one row has a non-blank Condition: with no selector (or a
selector matching no row's Condition) the resolver returns the
needs-selection "split" result whose options are the non-blank Condition
values of the matching rows in table order (with multiplicity — the source
does not deduplicate them); with a selector equal to a row's Condition it
resolves the first such row's court. -/
theorem resolver_geographic_split (rules : List JurisdictionRule)
    (ci : List CourtInfoRow) (zip demandAmount : String) (sel : Option String)
    (hlen : 2 ≤ (rules.filter (fun row => row.ZipCode == zip &&
        row.CaseType == caseTypeOf demandAmount)).length)
    (hcond : (rules.filter (fun row => row.ZipCode == zip &&
        row.CaseType == caseTypeOf demandAmount)).any
        (fun row => row.Condition != "" && jsTrim row.Condition != "") = true) :
    ((∀ s : String, sel = some s → s ≠ "" →
        (rules.filter (fun row => row.ZipCode == zip &&
          row.CaseType == caseTypeOf demandAmount)).find?
            (fun row => row.Condition == s) = none) →
      determineCourt rules ci zip demandAmount sel =
        { success := false
          needsSelection := true
          type := some "split"
          options := ((rules.filter (fun row => row.ZipCode == zip &&
              row.CaseType == caseTypeOf demandAmount)).map
                (fun row => row.Condition)).filter (fun c => c != "" && jsTrim c != "")
          caseType := jsToLowerCase (caseTypeOf demandAmount) }) ∧
    (∀ (s : String) (entry : JurisdictionRule), sel = some s → s ≠ "" →
        (rules.filter (fun row => row.ZipCode == zip &&
          row.CaseType == caseTypeOf demandAmount)).find?
            (fun row => row.Condition == s) = some entry →
      determineCourt rules ci zip demandAmount sel =
        resolveCourtRow ci (caseTypeOf demandAmount) entry.CourtName) := by
  rcases hfm : rules.filter (fun row => row.ZipCode == zip &&
      row.CaseType == caseTypeOf demandAmount) with - | ⟨a, - | ⟨b, t⟩⟩
  · rw [hfm] at hlen; simp at hlen
  · rw [hfm] at hlen; simp at hlen
  · have hcond' : ((a :: b :: t).any
        (fun row => row.Condition != "" && jsTrim row.Condition != "")) = true := by
      rw [← hfm]; exact hcond
    constructor
    · intro hnone
      cases sel with
      | none =>
        simp only [determineCourt.eq_def, hfm]
        rw [if_pos hcond']
      | some s =>
        by_cases hs : s = ""
        · subst hs
          simp only [determineCourt.eq_def, hfm]
          rw [if_pos hcond', if_neg (by simp)]
        · have hfind := hnone s rfl hs
          rw [hfm] at hfind
          simp only [determineCourt.eq_def, hfm]
          rw [if_pos hcond', if_pos hs, hfind]
    · intro s entry hsel hs hfind
      subst hsel
      rw [hfm] at hfind
      simp only [determineCourt.eq_def, hfm]
      rw [if_pos hcond', if_pos hs, hfind]

/-- Counterexample to C7 as stated: with two matching rows whose Condition
is the same value "North" (plus one "South"), the options list the resolver
returns is `["North", "North", "South"]` — the non-blank Condition values
with multiplicity, not the distinct values `["North", "South"]`. -/
theorem resolver_split_options_not_distinct_counterexample :
    (determineCourt
        [⟨"90001", "Unlimited", "Court A", "North", ""⟩,
         ⟨"90001", "Unlimited", "Court B", "North", ""⟩,
         ⟨"90001", "Unlimited", "Court C", "South", ""⟩] [] "90001" "" none).options =
      ["North", "North", "South"] ∧
    ¬ (determineCourt
        [⟨"90001", "Unlimited", "Court A", "North", ""⟩,
         ⟨"90001", "Unlimited", "Court B", "North", ""⟩,
         ⟨"90001", "Unlimited", "Court C", "South", ""⟩] [] "90001" "" none).options.Nodup ∧
    (determineCourt
        [⟨"90001", "Unlimited", "Court A", "North", ""⟩,
         ⟨"90001", "Unlimited", "Court B", "North", ""⟩,
         ⟨"90001", "Unlimited", "Court C", "South", ""⟩] [] "90001" "" none).type =
      some "split" := by
  refine ⟨by decide, by decide, by decide⟩

/-- Witness for C7 on the spec's own example: ZIP 90001, Unlimited, rows
with Conditions "North" and "South". -/
theorem resolver_geographic_split_witness :
    determineCourt
        [⟨"90001", "Unlimited", "Court North", "North", ""⟩,
         ⟨"90001", "Unlimited", "Court South", "South", ""⟩]
        [⟨"Court South", "1 Main St, Los Angeles, CA 90001", "South District"⟩]
        "90001" "" none =
      { success := false
        needsSelection := true
        type := some "split"
        options := ["North", "South"]
        caseType := "unlimited" } ∧
    determineCourt
        [⟨"90001", "Unlimited", "Court North", "North", ""⟩,
         ⟨"90001", "Unlimited", "Court South", "South", ""⟩]
        [⟨"Court South", "1 Main St, Los Angeles, CA 90001", "South District"⟩]
        "90001" "" (some "South") =
      { success := true
        courtName := some "Court South"
        courtAddress := some "1 Main St, Los Angeles, CA 90001"
        courtDistrict := some "South District"
        caseType := "unlimited" } := by
  constructor
  · exact ((resolver_geographic_split
      [⟨"90001", "Unlimited", "Court North", "North", ""⟩,
       ⟨"90001", "Unlimited", "Court South", "South", ""⟩]
      [⟨"Court South", "1 Main St, Los Angeles, CA 90001", "South District"⟩]
      "90001" "" none (by decide) (by decide)).1 (fun s hs => nomatch hs)).trans (by decide)
  · exact ((resolver_geographic_split
      [⟨"90001", "Unlimited", "Court North", "North", ""⟩,
       ⟨"90001", "Unlimited", "Court South", "South", ""⟩]
      [⟨"Court South", "1 Main St, Los Angeles, CA 90001", "South District"⟩]
      "90001" "" (some "South") (by decide) (by decide)).2 "South"
      ⟨"90001", "Unlimited", "Court South", "South", ""⟩ rfl (by decide)
      (by decide)).trans (by decide)

/-- C8.  The resolver is a total function into plain result values (the
embedding is total because every access in the source is guarded): every
call yields exactly one of the three structured shapes — resolved,
needs-selection (split or choice), or not-found-with-error — and in
particular zero filter matches yield a structured error result and an
ambiguous match not settled by the selector yields a structured
needs-selection result. -/
theorem resolver_always_returns_structured_result (rules : List JurisdictionRule)
    (ci : List CourtInfoRow) (zip demandAmount : String) (sel : Option String) :
    (((determineCourt rules ci zip demandAmount sel).success = true ∧
        (determineCourt rules ci zip demandAmount sel).error = none ∧
        (determineCourt rules ci zip demandAmount sel).needsSelection = false) ∨
      ((determineCourt rules ci zip demandAmount sel).success = false ∧
        (determineCourt rules ci zip demandAmount sel).needsSelection = true ∧
        ((determineCourt rules ci zip demandAmount sel).type = some "split" ∨
          (determineCourt rules ci zip demandAmount sel).type = some "choice")) ∨
      ((determineCourt rules ci zip demandAmount sel).success = false ∧
        (determineCourt rules ci zip demandAmount sel).needsSelection = false ∧
        ((determineCourt rules ci zip demandAmount sel).error).isSome = true)) ∧
    (rules.filter (fun row => row.ZipCode == zip &&
        row.CaseType == caseTypeOf demandAmount) = [] →
      (determineCourt rules ci zip demandAmount sel).success = false ∧
        ((determineCourt rules ci zip demandAmount sel).error).isSome = true) ∧
    (2 ≤ (rules.filter (fun row => row.ZipCode == zip &&
        row.CaseType == caseTypeOf demandAmount)).length →
      (∀ s : String, sel = some s → s ≠ "" →
        (rules.filter (fun row => row.ZipCode == zip &&
          row.CaseType == caseTypeOf demandAmount)).find?
            (fun row => row.Condition == s) = none ∧
        (rules.filter (fun row => row.ZipCode == zip &&
          row.CaseType == caseTypeOf demandAmount)).find?
            (fun row => row.CourtName == s) = none) →
      (determineCourt rules ci zip demandAmount sel).needsSelection = true) := by
  refine ⟨?_, ?_, ?_⟩
  · simp only [determineCourt.eq_def]
    repeat' split
    all_goals first
      | exact Or.inl ⟨rfl, rfl, rfl⟩
      | exact Or.inr (Or.inl ⟨rfl, rfl, Or.inl rfl⟩)
      | exact Or.inr (Or.inl ⟨rfl, rfl, Or.inr rfl⟩)
      | exact Or.inr (Or.inr ⟨rfl, rfl, rfl⟩)
  · intro hfm
    simp only [determineCourt.eq_def, hfm]
    exact ⟨trivial, rfl⟩
  · intro hlen hsel
    rcases hfm : rules.filter (fun row => row.ZipCode == zip &&
        row.CaseType == caseTypeOf demandAmount) with - | ⟨a, - | ⟨b, t⟩⟩
    · rw [hfm] at hlen; simp at hlen
    · rw [hfm] at hlen; simp at hlen
    · simp only [determineCourt.eq_def, hfm]
      by_cases hcond : ((a :: b :: t).any
          (fun row => row.Condition != "" && jsTrim row.Condition != "")) = true
      · rw [if_pos hcond]
        cases sel with
        | none => rfl
        | some s =>
          dsimp only
          by_cases hs : s = ""
          · subst hs
            rfl
          · have hfind := (hsel s rfl hs).1
            rw [hfm] at hfind
            rw [if_pos hs, hfind]
      · rw [if_neg hcond]
        cases sel with
        | none => rfl
        | some s =>
          dsimp only
          by_cases hs : s = ""
          · subst hs
            rfl
          · have hfind := (hsel s rfl hs).2
            rw [hfm] at hfind
            rw [if_pos hs, hfind]

/-- Witness for C8: a call with an empty rule table produces the structured
not-found result, and an ambiguous two-row table with no selector produces
the structured needs-selection result. -/
theorem resolver_always_returns_structured_result_witness :
    ((determineCourt [] [] "00000" "" none).success = false ∧
      ((determineCourt [] [] "00000" "" none).error).isSome = true) ∧
    (determineCourt
        [⟨"90001", "Unlimited", "Court North", "North", ""⟩,
         ⟨"90001", "Unlimited", "Court South", "South", ""⟩] [] "90001" ""
        none).needsSelection = true := by
  refine ⟨(resolver_always_returns_structured_result [] [] "00000" "" none).2.1 (by decide),
    (resolver_always_returns_structured_result _ [] "90001" "" none).2.2 (by decide)
      (fun s hs => nomatch hs)⟩

/-! ## The derived-field pipeline `processDynamicVariables` (lines 452-928)

The incoming JSON object is modelled as a partial map from keys to JSON
values (string, boolean, null, or an array of strings — the only value
kinds the pipeline stores).  `none` models an absent key (`undefined`). -/

inductive JsValue where
  | str (s : String)
  | bool (b : Bool)
  | null
  | strList (l : List String)
deriving Repr, DecidableEq

abbrev DataMap := String → Option JsValue

/-- `data[k] = v`. -/
def setKey (data : DataMap) (k : String) (v : JsValue) : DataMap :=
  fun k' => if k' = k then some v else data k'

/-- JavaScript truthiness of `data[k]`. -/
def jsTruthy : Option JsValue → Bool
  | some (.str s) => s != ""
  | some (.bool b) => b
  | some .null => false
  | some (.strList _) => true
  | none => false

/-- `data[k] || ''` at the string-valued keys the pipeline reads this way
(a falsy or non-string value yields `''`). -/
def getStrOr (data : DataMap) (k : String) : String :=
  match data k with
  | some (.str s) => s
  | _ => ""

/-- `a || b` on strings (first operand when truthy). -/
def strOrElse (a b : String) : String :=
  if a ≠ "" then a else b

/-- `String(x)`. -/
def jsStringOfValue : Option JsValue → String
  | some (.str s) => s
  | some (.bool b) => if b then "true" else "false"
  | some .null => "null"
  | some (.strList l) => String.intercalate "," l
  | none => "undefined"

/-- `str.split(/\s+/)` including JavaScript's empty first/last segments for
leading/trailing whitespace (`prevWs` marks that the previous character was
inside an already-emitted whitespace run). -/
def splitWSAux : Bool → List Char → List Char → List (List Char)
  | _, cur, [] => [cur.reverse]
  | prevWs, cur, c :: cs =>
    if jsIsWhitespace c then
      if prevWs then splitWSAux true cur cs
      else cur.reverse :: splitWSAux true [] cs
    else splitWSAux false (c :: cur) cs

def jsSplitWS (s : String) : List String :=
  (splitWSAux false [] s.toList).map String.mk

/-- `word.charAt(0).toUpperCase() + word.slice(1)`. -/
def capitalizeWord (word : String) : String :=
  match word.toList with
  | [] => ""
  | c :: cs => String.mk (jsToUpperChar c :: cs)

def smallWords : List String :=
  ["of", "the", "and", "a", "an", "in", "on", "at", "to", "for", "with"]

def acronyms : List String := ["LLP", "LLC", "PC", "USA", "INC", "LTD", "CORP"]

/-- `toTitleCase` (lines 422-446): lower-case, split on whitespace,
capitalise every word except non-initial small words, then force to upper
case any word whose punctuation-stripped form is a listed acronym. -/
def toTitleCase (str : String) : String :=
  if str = "" then str
  else
    let lower := jsToLowerCase str
    let words := jsSplitWS lower
    let words2 := words.enum.map (fun p =>
      if 0 < p.1 ∧ smallWords.contains p.2 then p.2 else capitalizeWord p.2)
    let words3 := words2.map (fun word =>
      let cleanWord := jsToUpperCase (String.mk (word.toList.filter (fun c =>
        isAsciiLetter c || c.isDigit)))
      if acronyms.contains cleanWord then cleanWord else word)
    String.intercalate " " words3

example : toTitleCase "jane q. smith" = "Jane Q. Smith" := by decide
example : toTitleCase "ACME Corp" = "Acme CORP" := by decide
example : toTitleCase "smith of llp" = "Smith of LLP" := by decide

/-- Regex `\w` — the word-character class that defines `\b`. -/
def wordCharB (c : Char) : Bool := isIdentTail c

/-- Case-insensitive prefix match (regex `i` flag on ASCII words). -/
def prefixMatchesCI : List Char → List Char → Bool
  | [], _ => true
  | _ :: _, [] => false
  | n :: ns, h :: hs => jsToLowerChar n == jsToLowerChar h && prefixMatchesCI ns hs

/-- A word boundary right after the matched word: end of string or a
non-word character. -/
def boundaryAfter : List Char → Bool
  | [] => true
  | c :: _ => !wordCharB c

/-- `str.replace(/\bWORD\b/gi, repl)`: scan the original string left to
right; at each position with a word boundary before it, a case-insensitive
occurrence of the word, and a word boundary after it, emit the replacement
and resume after the occurrence (its last character is a word character, so
the resumed scan starts with `prevW = true`).  `fuel` forces structural
termination and is initialised to the string length, which bounds the
number of steps. -/
def replaceWordAllAux (w repl : List Char) : Nat → Bool → List Char → List Char
  | _, _, [] => []
  | 0, _, s => s
  | fuel + 1, prevW, c :: cs =>
    if !prevW && prefixMatchesCI w (c :: cs) && boundaryAfter ((c :: cs).drop w.length) then
      repl ++ replaceWordAllAux w repl fuel true ((c :: cs).drop w.length)
    else c :: replaceWordAllAux w repl fuel (wordCharB c) cs

def replaceWordCI (w repl s : String) : String :=
  String.mk (replaceWordAllAux w.toList repl.toList s.toList.length false s.toList)

/-- `standardizeAddress` (lines 390-415): the eleven case-insensitive
whole-word abbreviations applied in the source's object order. -/
def standardizeAddress (address : String) : String :=
  if address = "" then address
  else
    [("Court", "Ct."), ("Suite", "Ste."), ("Street", "St."), ("Avenue", "Ave."),
     ("Boulevard", "Blvd."), ("Floor", "Fl."), ("Drive", "Dr."), ("Road", "Rd."),
     ("Lane", "Ln."), ("Circle", "Cir."), ("Parkway", "Pkwy.")].foldl
      (fun formatted p => replaceWordCI p.1 p.2 formatted) address

/-- Boundary for `(?!\.)\b` after a street suffix: end of string, or a
character that is neither a word character nor a period. -/
def periodBoundaryAfter : List Char → Bool
  | [] => true
  | c :: _ => !wordCharB c && c != '.'

/-- `str.replace(/\bSUF(?!\.)\b/gi, SUF + '.')` (lines 724-731): append a
period to a street suffix not already followed by one; the replacement uses
the suffix's canonical casing, as the source does. -/
def replacePeriodSuffixAux (w : List Char) : Nat → Bool → List Char → List Char
  | _, _, [] => []
  | 0, _, s => s
  | fuel + 1, prevW, c :: cs =>
    if !prevW && prefixMatchesCI w (c :: cs) &&
        periodBoundaryAfter ((c :: cs).drop w.length) then
      (w ++ ['.']) ++ replacePeriodSuffixAux w fuel true ((c :: cs).drop w.length)
    else c :: replacePeriodSuffixAux w fuel (wordCharB c) cs

def streetSuffixes : List String :=
  ["St", "Dr", "Ter", "Pl", "Blvd", "Ave", "Rd", "Ln", "Ct", "Cir", "Pkwy", "Way"]

def addPeriodsToSuffixes (address : String) : String :=
  streetSuffixes.foldl (fun acc suf =>
    String.mk (replacePeriodSuffixAux suf.toList acc.toList.length false acc.toList)) address

/-- `str.replace(/,\s*$/, '')`: drop the last comma and what follows it
when only whitespace follows it. -/
def stripTrailingCommaWS (s : String) : String :=
  match s.toList.reverse.dropWhile jsIsWhitespace with
  | ',' :: rest => String.mk rest.reverse
  | _ => s

/-- The legal-entity suffix alternatives of
`/,\s*(an individual|a corporation|a limited liability company|an LLC|a
partnership|a sole proprietorship|etc\.?)$/i`, lower-cased. -/
def entitySuffixAlts : List String :=
  ["an individual", "a corporation", "a limited liability company", "an llc",
   "a partnership", "a sole proprietorship", "etc.", "etc"]

def entitySuffixMatches (cs : List Char) : Bool :=
  let rest := (cs.dropWhile jsIsWhitespace).map jsToLowerChar
  entitySuffixAlts.any (fun alt => rest == alt.toList)

def stripEntitySuffixAux : List Char → List Char → Option (List Char)
  | _, [] => none
  | acc, c :: cs =>
    if c == ',' && entitySuffixMatches cs then some acc.reverse
    else stripEntitySuffixAux (c :: acc) cs

/-- The anchored entity-suffix replacement: the leftmost comma after which
only whitespace and one alternative remain (to the end) is removed together
with the suffix. -/
def stripEntitySuffix (s : String) : String :=
  match stripEntitySuffixAux [] s.toList with
  | some p => String.mk p
  | none => s

/-- `String(val).replace(/\D/g, '').slice(-4)` guarded by `if (!val)`. -/
def sanitizeLast4 (val : String) : String :=
  if val = "" then ""
  else
    let digits := val.toList.filter Char.isDigit
    String.mk (digits.drop (digits.length - 4))

def digitsLead (cs : List Char) : Option Nat :=
  let ds := cs.takeWhile Char.isDigit
  if ds.isEmpty then none else some (digitsToNat ds)

/-- `parseInt(s, 10)`: skip leading whitespace, an optional sign, then the
longest digit prefix; no digit gives `NaN` (`none`). -/
def parseIntM (s : String) : Option Int :=
  match s.toList.dropWhile jsIsWhitespace with
  | '-' :: rest => (digitsLead rest).map (fun n => -(n : Int))
  | '+' :: rest => (digitsLead rest).map (fun n => (n : Int))
  | cs => (digitsLead cs).map (fun n => (n : Int))

/-- The fixed number-word table `numWords` (line 880). -/
def numWordsTable (n : Int) : Option String :=
  if n = 1 then some "ONE" else if n = 2 then some "TWO"
  else if n = 3 then some "THREE" else if n = 4 then some "FOUR"
  else if n = 5 then some "FIVE" else if n = 6 then some "SIX"
  else if n = 7 then some "SEVEN" else if n = 8 then some "EIGHT"
  else if n = 9 then some "NINE" else if n = 10 then some "TEN" else none

/-- `hay.indexOf(needle)` (successful case as `some`). -/
def indexOfSubAux (needle : List Char) : List Char → Nat → Option Nat
  | [], i => if needle.isEmpty then some i else none
  | c :: cs, i =>
    if needle.isPrefixOf (c :: cs) then some i else indexOfSubAux needle cs (i + 1)

def indexOfSub (hay needle : String) : Option Nat :=
  indexOfSubAux needle.toList hay.toList 0

/-- `hay.includes(needle)`. -/
def containsSub (hay needle : String) : Bool :=
  (indexOfSub hay needle).isSome

example : standardizeAddress "100 main street, suite 4" = "100 main St., Ste. 4" := by decide
example : addPeriodsToSuffixes "10 Main St Apt 2" = "10 Main St. Apt 2" := by decide
example : addPeriodsToSuffixes "10 Main St." = "10 Main St." := by decide
example : stripEntitySuffix "ACME Corp, a corporation" = "ACME Corp" := by decide
example : stripTrailingCommaWS "abc, " = "abc" := by decide
example : parseIntM "  3.7" = some 3 := by decide
example : parseIntM "abc" = none := by decide
example : sanitizeLast4 "12-345-6789" = "6789" := by decide
example : containsSub "john, assignee of record" "assignee" = true := by decide

/-- Global sanitisation (lines 453-460): every key whose value is `null` or
the literal string `"null"` becomes the empty string (`undefined` means the
key is absent and is not visited). -/
def pdvSanitize (data : DataMap) : DataMap :=
  fun k => match data k with
    | some .null => some (.str "")
    | some (.str s) => if s = "null" then some (.str "") else some (.str s)
    | v => v

/-- One `if (data[k]) data[k] = sanitizeLast4(data[k])` statement. -/
def last4Fix (data : DataMap) (k : String) : DataMap :=
  if jsTruthy (data k) then setKey data k (.str (sanitizeLast4 (getStrOr data k))) else data

/-- Last-4-digits sanitisation of the four identifier fields (lines 462-484). -/
def pdvLast4 (data : DataMap) : DataMap :=
  last4Fix (last4Fix (last4Fix (last4Fix data "[DEBTOR1_DL_LAST4]") "[DEBTOR1_SS_LAST4]")
    "[DEBTOR2_DL_LAST4]") "[DEBTOR2_SS_LAST4]"

/-- Debtor address/city clean-up and title-casing (lines 486-495). -/
def pdvDebtorAddr (data : DataMap) : DataMap :=
  let data := if jsTruthy (data "[DEBTOR1_ADDRESS]") then
      setKey data "[DEBTOR1_ADDRESS]"
        (.str (toTitleCase (jsTrim (stripTrailingCommaWS (getStrOr data "[DEBTOR1_ADDRESS]")))))
    else data
  if jsTruthy (data "[DEBTOR1_CITY]") then
    setKey data "[DEBTOR1_CITY]" (.str (toTitleCase (getStrOr data "[DEBTOR1_CITY]")))
  else data

/-- `if (c) { data[k] = v }` as a single map update (the per-key view of a
guarded assignment; when the guard fails the key keeps its previous
binding). -/
def updIf (c : Prop) [Decidable c] (k : String) (v : JsValue) (data : DataMap) : DataMap :=
  fun k' => if k' = k then (if c then some v else data k') else data k'

/-- Attorney/firm blocks (lines 497-683): the shared locals are read once
at the top, exactly as the source does; none of the keys this section reads
is ever written by it (the `FIRM_NAME` overwrite is used downstream only
through the local `formattedFirmName`), so every guarded assignment is
expressed against the section's entry map, innermost first in source
order.  Write order within the section is immaterial: the written keys are
pairwise distinct. -/
def pdvAttyFirm (data : DataMap) : DataMap :=
  let attyName := getStrOr data "[ATTY_NAME]"
  let firmName := getStrOr data "[FIRM_NAME]"
  let formattedFirmName := toTitleCase firmName
  let firmAddress := getStrOr data "[FIRM_ADDRESS]"
  let firmCity := getStrOr data "[FIRM_CITY]"
  let firmState := getStrOr data "[FIRM_STATE]"
  let firmZip := getStrOr data "[FIRM_ZIP]"
  let firmPhone := getStrOr data "[FIRM_PHONE]"
  let sbn := getStrOr data "[ATTY_SBN]"
  let attyName2 := getStrOr data "[ATTY_NAME2]"
  let sbn2 := getStrOr data "[ATTY_SBN2]"
  let cleanName := if attyName2 ≠ "" then
      (jsTrim (stripTrailingCommaWS (String.mk ((match indexOfSub attyName2 "SBN" with
        | some idx => jsTrim (String.mk (attyName2.toList.take idx))
        | none => attyName2).toList.filter (fun c => !c.isDigit))))) ++ ", Esq."
    else attyName2
  let formattedAddress := standardizeAddress firmAddress
  let parts := (if cleanName ≠ "" then [cleanName] else []) ++
    (if formattedFirmName ≠ "" then [formattedFirmName] else []) ++
    (if formattedAddress ≠ "" ∨ firmCity ≠ "" then
      (let firmCityStateZip := formattedAddress ++ ", " ++ firmCity ++ ", " ++
        firmState ++ " " ++ firmZip
       if firmCityStateZip.length > 0 then [firmCityStateZip] else [])
     else []) ++
    (if firmPhone ≠ "" then [firmPhone] else [])
  let finalString := String.intercalate " " parts
  let attorneys := (if attyName ≠ "" then
      [if sbn ≠ "" then attyName ++ ", Esq., SBN " ++ sbn else attyName] else []) ++
    (if attyName2 ≠ "" then
      [if sbn2 ≠ "" then attyName2 ++ ", Esq., SBN " ++ sbn2 else attyName2] else []) ++
    (([3, 4, 5, 6, 7, 8, 9, 10] : List Nat).filterMap (fun i =>
      let nm := getStrOr data ("[ATTY_NAME" ++ toString i ++ "]")
      let sb := getStrOr data ("[ATTY_SBN" ++ toString i ++ "]")
      if nm ≠ "" then some (if sb ≠ "" then nm ++ ", Esq., SBN " ++ sb else nm) else none))
  let attyEmail := getStrOr data "[ATTY_EMAIL]"
  let attyEmail2 := getStrOr data "[ATTY_EMAIL2]"
  let emails := (if attyEmail ≠ "" then [attyEmail] else []) ++
    (if attyEmail2 ≠ "" then [attyEmail2] else [])
  let addressParts := (if formattedAddress ≠ "" then [formattedAddress] else []) ++
    (if firmCity ≠ "" then [firmCity] else []) ++
    (if firmState ≠ "" ∧ firmZip ≠ "" then [firmState ++ " " ++ firmZip]
     else if firmState ≠ "" then [firmState]
     else if firmZip ≠ "" then [firmZip] else [])
  let addressString := String.intercalate ", " addressParts
  let fparts := (if formattedFirmName ≠ "" then [formattedFirmName] else []) ++
    (if addressString ≠ "" then [addressString] else [])
  let firmFullAddr := String.intercalate " " fparts
  updIf ((formattedFirmName ≠ "" ∨ firmAddress ≠ "" ∨ firmCity ≠ "") ∧ addressString ≠ "")
      "[VAR_FIRM_FULL_ADDR_NO_FIRM]" (.str addressString)
    (updIf ((formattedFirmName ≠ "" ∨ firmAddress ≠ "" ∨ firmCity ≠ "") ∧ firmFullAddr ≠ "")
      "[VAR_FIRM_FULL_ADDR]" (.str firmFullAddr)
    (updIf (0 < emails.length) "[VAR_ATTY_EMAIL]" (.str (String.intercalate ", " emails))
    (updIf (0 < attorneys.length) "[VAR_ATTY_WITH_SBN]"
      (.str (String.intercalate "; " attorneys))
    (updIf (attyName2 ≠ "") "[VAR_ATTY_NAME2]" (.str (attyName2 ++ ", Esq."))
    (updIf ((attyName2 ≠ "" ∨ formattedFirmName ≠ "" ∨ firmAddress ≠ "" ∨ firmCity ≠ "") ∧
        finalString ≠ "")
      "[VAR_ATTY_NAME_WITH_ADDRESS]" (.str finalString)
    (updIf (¬ jsTruthy (data "[DEBTOR1_SS_LAST4]") = true ∨
        jsTrim (getStrOr data "[DEBTOR1_SS_LAST4]") = "")
      "[IS_DEBTOR1_SS_UNKNOWN]" (.bool true)
    (updIf (¬ jsTruthy (data "[DEBTOR1_DL_LAST4]") = true ∨
        jsTrim (getStrOr data "[DEBTOR1_DL_LAST4]") = "")
      "[IS_DEBTOR1_DL_UNKNOWN]" (.bool true)
    (updIf (firmCity ≠ "" ∧ firmState ≠ "" ∧ firmZip ≠ "")
      "[VAR_CITY_STATE_ZIP]" (.str (firmCity ++ ", " ++ firmState ++ " " ++ firmZip))
    (updIf (attyName2 ≠ "") "[VAR_CAPITAL_ATTY_NAME2]" (.str (jsToUpperCase attyName2))
    (updIf (attyName2 ≠ "") "[VAR_ATTY2_NAME]"
      (.str (if sbn2 ≠ "" then attyName2 ++ ", SBN: " ++ sbn2 else attyName2))
    (updIf (attyName ≠ "") "[VAR_ATTY1_NAME]"
      (.str (if sbn ≠ "" then attyName ++ ", SBN: " ++ sbn else attyName))
    (updIf (formattedFirmName ≠ "") "[VAR_FIRM_FULL_NAME_CAPITAL]"
      (.str (jsToUpperCase formattedFirmName))
    (updIf (formattedFirmName ≠ "") "[VAR_FIRM_FULL_NAME]" (.str formattedFirmName)
    (updIf (formattedFirmName ≠ "") "[FIRM_NAME]" (.str formattedFirmName)
      data))))))))))))))

/-- Defendant blocks (lines 685-735): DOES clause, cleaned defendant
variants, address block, and service address with street-suffix periods. -/
def pdvDefendant (data : DataMap) : DataMap :=
  let defendantName := getStrOr data "[DEFENDANT_NAME]"
  let data := if defendantName ≠ "" then
      let cleanName := jsTrim (stripEntitySuffix defendantName)
      setKey data "[VAR_DEFENDANT_WITH_DOES]"
        (.str (cleanName ++ ", an individual; and DOES 1 through 10, inclusive"))
    else data
  let data := if defendantName ≠ "" then
      let cleanName := jsTrim (stripEntitySuffix defendantName)
      let data := setKey data "[VAR_DEFENDANT_NAME]" (.str cleanName)
      let data := setKey data "[VAR_DEFENDANT_NAME_ET_AL]" (.str (cleanName ++ ", et al."))
      let data := setKey data "[VAR_DEFENDANT_INDIVIDUAL]"
        (.str (cleanName ++ ", an individual"))
      setKey data "[DEFENDANT_NAME_P2]" (.str (cleanName ++ ", et al."))
    else data
  if defendantName ≠ "" then
    let debtorAddress := getStrOr data "[DEBTOR1_ADDRESS]"
    let debtorCity := getStrOr data "[DEBTOR1_CITY]"
    let debtorState := getStrOr data "[DEBTOR1_STATE]"
    let debtorZipForAddr := getStrOr data "[DEBTOR1_ZIP]"
    let addressLine := defendantName ++ ", an individual\n" ++ debtorAddress ++ "\n" ++
      debtorCity ++ ", " ++ debtorState ++ " " ++ debtorZipForAddr
    let data := setKey data "[VAR_DEFENDANT_NAME_WITH_ADDRESS]" (.str addressLine)
    let addressLineNoIndividual := defendantName ++ "\n" ++ debtorAddress ++ "\n" ++
      debtorCity ++ ", " ++ debtorState ++ " " ++ debtorZipForAddr
    let data := setKey data "[VAR_DEFENDANT_NAME_WITH_ADDRESS_NO_INDIVIDUAL]"
      (.str addressLineNoIndividual)
    let formattedDebtorAddress := if debtorAddress ≠ "" then addPeriodsToSuffixes debtorAddress
      else debtorAddress
    let serviceAddressParts := [defendantName ++ ",", formattedDebtorAddress ++ ",",
      debtorCity ++ ", " ++ debtorState ++ " " ++ debtorZipForAddr].filter (fun p => p ≠ "")
    setKey data "[VAR_DEFENDANT_SERVICE_ADDRESS]"
      (.str (String.intercalate " " serviceAddressParts))
  else data

/-- `fullAddress.split(',')`. -/
def splitOnCommaAux : List Char → List Char → List (List Char)
  | cur, [] => [cur.reverse]
  | cur, c :: cs =>
    if c == ',' then cur.reverse :: splitOnCommaAux [] cs else splitOnCommaAux (c :: cur) cs

def splitOnComma (s : String) : List String :=
  (splitOnCommaAux [] s.toList).map String.mk

/-- Court lookup on the debtor ZIP (lines 737-789): call `determineCourt`
and map its result onto the courthouse fields, splitting the comma-joined
address with "the last two comma segments are city and state-zip". -/
def pdvCourtLookup (jurisdictionRules : List JurisdictionRule)
    (courtInfo : List CourtInfoRow) (data : DataMap) : DataMap :=
  let debtorZip := getStrOr data "[DEBTOR1_ZIP]"
  if debtorZip ≠ "" then
    let lookupDemandAmount := strOrElse (getStrOr data "[DEMAND_AMOUNT]")
      (getStrOr data "[JUDGMENT_TOTAL_AMOUNT]")
    let citySelection := if getStrOr data "[COURT_CITY_SELECTION]" ≠ "" then
        some (getStrOr data "[COURT_CITY_SELECTION]") else none
    let courtResult := determineCourt jurisdictionRules courtInfo debtorZip
      lookupDemandAmount citySelection
    if courtResult.success then
      let courthouseName := (courtResult.courtName).getD ""
      let data := setKey data "[VAR_COURTHOUSE]" (.str courthouseName)
      let data := setKey data "[COURT_BRANCH_NAME]" (.str courthouseName)
      if (courtResult.courtAddress).getD "" ≠ "" then
        let fullAddress := (courtResult.courtAddress).getD ""
        let data := setKey data "[VAR_COURT_INFO]" (.str fullAddress)
        let data := setKey data "[COURT_DISTRICT]"
          (.str ((courtResult.courtDistrict).getD ""))
        let parts := (splitOnComma fullAddress).map jsTrim
        if 3 ≤ parts.length then
          let streetJoined := String.intercalate ", " (parts.take (parts.length - 2))
          let data := setKey data "[COURT_STREET_ADDRESS]" (.str streetJoined)
          let data := setKey data "[COURT_MAILING_ADDRESS]" (.str streetJoined)
          setKey data "[COURT_CITY_ZIP]"
            (.str (parts.getD (parts.length - 2) "" ++ ", " ++ parts.getD (parts.length - 1) ""))
        else if parts.length = 2 then
          let data := setKey data "[COURT_STREET_ADDRESS]" (.str (parts.getD 0 ""))
          let data := setKey data "[COURT_MAILING_ADDRESS]" (.str (parts.getD 0 ""))
          setKey data "[COURT_CITY_ZIP]" (.str (parts.getD 1 ""))
        else
          let data := setKey data "[COURT_STREET_ADDRESS]" (.str fullAddress)
          let data := setKey data "[COURT_MAILING_ADDRESS]" (.str fullAddress)
          setKey data "[COURT_CITY_ZIP]" (.str "")
      else data
    else if courtResult.needsSelection then
      let data := setKey data "[NEED_COURT_SELECTION]" (.bool true)
      setKey data "[COURT_OPTIONS]" (.strList courtResult.options)
    else
      setKey data "[ZIP_NOT_FOUND]" (.bool true)
  else data

/-- Court mailing-address rule (lines 791-799), applied unconditionally
after the (possibly skipped) lookup. -/
def pdvMailing (data : DataMap) : DataMap :=
  let courtStreet := jsTrim (jsToLowerCase (getStrOr data "[COURT_STREET_ADDRESS]"))
  let courtMailing := jsTrim (jsToLowerCase (getStrOr data "[COURT_MAILING_ADDRESS]"))
  if courtMailing = "" ∨ courtMailing = courtStreet then
    setKey data "[COURT_MAILING_ADDRESS]" (.str "Same as street address")
  else data

/-- Plaintiff/creditor/county/case-name blocks (lines 801-840). -/
def pdvPlaintiffCase (data : DataMap) : DataMap :=
  let plaintiffName := getStrOr data "[PLAINTIFF_NAME]"
  let defendantNameForCase := getStrOr data "[DEFENDANT_NAME]"
  let data := if plaintiffName ≠ "" then
      setKey data "[VAR_PLAINTIFF_NAME]" (.str ("Plaintiff, " ++ toTitleCase plaintiffName))
    else data
  let data := if plaintiffName ≠ "" then
      let creditorAddress := getStrOr data "[CREDITOR_ADDRESS]"
      let creditorCity := getStrOr data "[CREDITOR_CITY]"
      let creditorState := getStrOr data "[CREDITOR_STATE]"
      let creditorZip := getStrOr data "[CREDITOR_ZIP]"
      setKey data "[VAR_CREDITOR1_NAME]"
        (.str (plaintiffName ++ "\n" ++ creditorAddress ++ "\n" ++ creditorCity ++ ", " ++
          creditorState ++ " " ++ creditorZip))
    else data
  let courtCounty := getStrOr data "[COURT_COUNTY]"
  let data := if courtCounty ≠ "" then
      setKey data "[VAR_COURT_COUNTY]" (.str (jsToUpperCase courtCounty))
    else data
  if plaintiffName ≠ "" ∧ defendantNameForCase ≠ "" then
    let formattedPlaintiff := toTitleCase plaintiffName
    let cleanDefendant := jsTrim (stripEntitySuffix defendantNameForCase)
    let formattedDefendant := toTitleCase cleanDefendant
    let caseName := formattedPlaintiff ++ " v. " ++ formattedDefendant ++ ", et al."
    let data := setKey data "[VAR_CASE_NAME]" (.str caseName)
    let data := setKey data "[CASE_NAME2]" (.str caseName)
    let data := setKey data "[CASE_NAME3]" (.str caseName)
    let data := setKey data "[CASE_NAME4]" (.str caseName)
    setKey data "[CASE_NAME5]" (.str caseName)
  else data

/-- Monetary classification flags (lines 842-864). -/
def pdvLimited (data : DataMap) : DataMap :=
  let demandAmount := strOrElse (getStrOr data "[DEMAND_AMOUNT]")
    (getStrOr data "[JUDGMENT_TOTAL_AMOUNT]")
  let amount := if demandAmount ≠ "" then parseFloatM (cleanAmountOf demandAmount) else some 0
  match amount with
  | some a =>
    if demandAmount ≠ "" then
      if a ≤ 35000 then
        setKey (setKey (setKey data "[IS_LIMITED]" (.bool true)) "[IS_UNLIMITED]" (.bool false))
          "[VAR_UNLIMITED_OR_LIMITED]" (.str "Limited Civil Case")
      else
        setKey (setKey (setKey data "[IS_UNLIMITED]" (.bool true)) "[IS_LIMITED]" (.bool false))
          "[VAR_UNLIMITED_OR_LIMITED]" (.str "Unlimited Civil Case")
    else
      setKey (setKey (setKey data "[IS_LIMITED]" (.bool false)) "[IS_UNLIMITED]" (.bool false))
        "[VAR_UNLIMITED_OR_LIMITED]" (.str "")
  | none =>
    setKey (setKey (setKey data "[IS_LIMITED]" (.bool false)) "[IS_UNLIMITED]" (.bool false))
      "[VAR_UNLIMITED_OR_LIMITED]" (.str "")

/-- Breach-of-contract flag block (lines 866-877). -/
def pdvBreach (data : DataMap) : DataMap :=
  let raw := data "[RAW_IS_BREACH_OF_CONTRACT]"
  if raw = some (.bool true) ∨ jsToLowerCase (jsStringOfValue raw) = "true" then
    setKey (setKey (setKey (setKey (setKey (setKey (setKey (setKey data
      "[IS_BREACH_OF_CONTRACT_06]" (.bool true))
      "[IS_NOT_COMPLEX]" (.bool true))
      "[IS_COMPLEX]" (.bool false))
      "[IS_MONETARY]" (.bool true))
      "[IS_NON_MONETARY]" (.bool false))
      "[IS_NOT_CLASS_ACTION]" (.bool true))
      "[IS_CLASS_ACTION]" (.bool false))
      "[IS_REASON5]" (.bool true)
  else data

/-- `NUMBER_OF_CAUSES` formatting (lines 879-887). -/
def pdvCauses (data : DataMap) : DataMap :=
  let rawCount := data "[NUMBER_OF_CAUSES]"
  if jsTruthy rawCount then
    match parseIntM (jsStringOfValue rawCount) with
    | some countInt =>
      match numWordsTable countInt with
      | some w =>
        setKey data "[NUMBER_OF_CAUSES]" (.str (toString countInt ++ " (" ++ w ++ ")"))
      | none => data
    | none => data
  else data

/-- Judgment-creditor checkboxes (lines 889-905). -/
def pdvCreditor (data : DataMap) : DataMap :=
  let pNameLower := jsToLowerCase (getStrOr data "[PLAINTIFF_NAME]")
  let cNameLower := jsToLowerCase (getStrOr data "[CREDITOR1_NAME]")
  let combinedNames := pNameLower ++ " " ++ cNameLower
  let isCreditor := !(containsSub combinedNames "assignee" ||
    containsSub combinedNames "successor" || containsSub combinedNames "buyer")
  setKey (setKey (setKey (setKey data
    "[IS_JUDGMENT_CREDITOR]" (.bool isCreditor))
    "[IS_JUDGMENT_CREDITOR2]" (.bool isCreditor))
    "[IS_ASSIGNEE_OF_RECORD]" (.bool (!isCreditor)))
    "[IS_ASSIGNEE_OF_RECORD2]" (.bool (!isCreditor))

/-- Stay-of-enforcement inference (lines 907-916). -/
def pdvStay (data : DataMap) : DataMap :=
  let stayDate := strOrElse (getStrOr data "[STAY_DATE]")
    (getStrOr data "[STAY_ENFORCEMENT_DATE]")
  if stayDate = "" ∨ jsTrim stayDate = "" then
    setKey data "[IS_STAY_ORDERED]" (.bool true)
  else
    setKey data "[IS_STAY_ORDERED]" (.bool false)

/-- Certification default (lines 918-920). -/
def pdvCertified (data : DataMap) : DataMap :=
  setKey data "[IS_CERTIFIED_ABSTRACT]" (.bool true)

/-- Case-number mirror (lines 922-925). -/
def pdvMirror (data : DataMap) : DataMap :=
  if jsTruthy (data "[CASE_NUMBER]") then
    match data "[CASE_NUMBER]" with
    | some v => setKey data "[CASE_NUMBER_P2]" v
    | none => data
  else data

/-- `processDynamicVariables(data)` (lines 452-928), parameterised by the
loaded jurisdiction/court tables consumed by its internal
`determineCourt` call. -/
def processDynamicVariables (jurisdictionRules : List JurisdictionRule)
    (courtInfo : List CourtInfoRow) (data : DataMap) : DataMap :=
  pdvMirror (pdvCertified (pdvStay (pdvCreditor (pdvCauses (pdvBreach (pdvLimited
    (pdvPlaintiffCase (pdvMailing (pdvCourtLookup jurisdictionRules courtInfo
      (pdvDefendant (pdvAttyFirm (pdvDebtorAddr (pdvLast4 (pdvSanitize data))))))))))))))

/-- The empty field map. -/
def emptyData : DataMap := fun _ => none

/-! ## Frame lemmas: each pipeline block leaves every key it does not
write untouched -/

theorem pdvSanitize_id_at {data : DataMap} {k : String} {s : String}
    (h : data k = none ∧ s = "" ∨ data k = some (.str s)) (hn : s ≠ "null") :
    pdvSanitize data k = data k := by
  rcases h with ⟨h1, rfl⟩ | h1 <;> simp [pdvSanitize, h1, hn]

theorem getStrOr_eq_of (d : DataMap) (k s : String)
    (h : d k = none ∧ s = "" ∨ d k = some (.str s)) : getStrOr d k = s := by
  rcases h with ⟨h1, rfl⟩ | h1 <;> simp [getStrOr, h1]

theorem pdvLast4_frame (data : DataMap) (k : String)
    (h1 : k ≠ "[DEBTOR1_DL_LAST4]") (h2 : k ≠ "[DEBTOR1_SS_LAST4]")
    (h3 : k ≠ "[DEBTOR2_DL_LAST4]") (h4 : k ≠ "[DEBTOR2_SS_LAST4]") :
    pdvLast4 data k = data k := by
  simp [pdvLast4, last4Fix, setKey, ite_apply, h1, h2, h3, h4]

theorem pdvDebtorAddr_frame (data : DataMap) (k : String)
    (h1 : k ≠ "[DEBTOR1_ADDRESS]") (h2 : k ≠ "[DEBTOR1_CITY]") :
    pdvDebtorAddr data k = data k := by
  simp [pdvDebtorAddr, setKey, ite_apply, h1, h2]

theorem pdvAttyFirm_frame (data : DataMap) (k : String)
    (h1 : k ≠ "[FIRM_NAME]") (h2 : k ≠ "[VAR_FIRM_FULL_NAME]")
    (h3 : k ≠ "[VAR_FIRM_FULL_NAME_CAPITAL]") (h4 : k ≠ "[VAR_ATTY1_NAME]")
    (h5 : k ≠ "[VAR_ATTY2_NAME]") (h6 : k ≠ "[VAR_CAPITAL_ATTY_NAME2]")
    (h7 : k ≠ "[VAR_CITY_STATE_ZIP]") (h8 : k ≠ "[IS_DEBTOR1_DL_UNKNOWN]")
    (h9 : k ≠ "[IS_DEBTOR1_SS_UNKNOWN]") (h10 : k ≠ "[VAR_ATTY_NAME_WITH_ADDRESS]")
    (h11 : k ≠ "[VAR_ATTY_NAME2]") (h12 : k ≠ "[VAR_ATTY_WITH_SBN]")
    (h13 : k ≠ "[VAR_ATTY_EMAIL]") (h14 : k ≠ "[VAR_FIRM_FULL_ADDR]")
    (h15 : k ≠ "[VAR_FIRM_FULL_ADDR_NO_FIRM]") :
    pdvAttyFirm data k = data k := by
  simp [pdvAttyFirm, updIf, h1, h2, h3, h4, h5, h6, h7, h8, h9, h10, h11, h12, h13, h14, h15]

theorem pdvDefendant_frame (data : DataMap) (k : String)
    (h1 : k ≠ "[VAR_DEFENDANT_WITH_DOES]") (h2 : k ≠ "[VAR_DEFENDANT_NAME]")
    (h3 : k ≠ "[VAR_DEFENDANT_NAME_ET_AL]") (h4 : k ≠ "[VAR_DEFENDANT_INDIVIDUAL]")
    (h5 : k ≠ "[DEFENDANT_NAME_P2]") (h6 : k ≠ "[VAR_DEFENDANT_NAME_WITH_ADDRESS]")
    (h7 : k ≠ "[VAR_DEFENDANT_NAME_WITH_ADDRESS_NO_INDIVIDUAL]")
    (h8 : k ≠ "[VAR_DEFENDANT_SERVICE_ADDRESS]") :
    pdvDefendant data k = data k := by
  simp [pdvDefendant, setKey, ite_apply, h1, h2, h3, h4, h5, h6, h7, h8]

theorem pdvCourtLookup_frame (rules : List JurisdictionRule) (ci : List CourtInfoRow)
    (data : DataMap) (k : String)
    (h1 : k ≠ "[VAR_COURTHOUSE]") (h2 : k ≠ "[COURT_BRANCH_NAME]")
    (h3 : k ≠ "[VAR_COURT_INFO]") (h4 : k ≠ "[COURT_DISTRICT]")
    (h5 : k ≠ "[COURT_STREET_ADDRESS]") (h6 : k ≠ "[COURT_MAILING_ADDRESS]")
    (h7 : k ≠ "[COURT_CITY_ZIP]") (h8 : k ≠ "[NEED_COURT_SELECTION]")
    (h9 : k ≠ "[COURT_OPTIONS]") (h10 : k ≠ "[ZIP_NOT_FOUND]") :
    pdvCourtLookup rules ci data k = data k := by
  simp [pdvCourtLookup, setKey, ite_apply, h1, h2, h3, h4, h5, h6, h7, h8, h9, h10]

theorem pdvMailing_frame (data : DataMap) (k : String)
    (h : k ≠ "[COURT_MAILING_ADDRESS]") :
    pdvMailing data k = data k := by
  simp [pdvMailing, setKey, ite_apply, h]

theorem pdvPlaintiffCase_frame (data : DataMap) (k : String)
    (h1 : k ≠ "[VAR_PLAINTIFF_NAME]") (h2 : k ≠ "[VAR_CREDITOR1_NAME]")
    (h3 : k ≠ "[VAR_COURT_COUNTY]") (h4 : k ≠ "[VAR_CASE_NAME]")
    (h5 : k ≠ "[CASE_NAME2]") (h6 : k ≠ "[CASE_NAME3]")
    (h7 : k ≠ "[CASE_NAME4]") (h8 : k ≠ "[CASE_NAME5]") :
    pdvPlaintiffCase data k = data k := by
  simp [pdvPlaintiffCase, setKey, ite_apply, h1, h2, h3, h4, h5, h6, h7, h8]

theorem pdvLimited_frame (data : DataMap) (k : String)
    (h1 : k ≠ "[IS_LIMITED]") (h2 : k ≠ "[IS_UNLIMITED]")
    (h3 : k ≠ "[VAR_UNLIMITED_OR_LIMITED]") :
    pdvLimited data k = data k := by
  simp only [pdvLimited]
  split
  · cases hp : parseFloatM (cleanAmountOf (strOrElse (getStrOr data "[DEMAND_AMOUNT]")
        (getStrOr data "[JUDGMENT_TOTAL_AMOUNT]"))) with
    | none => simp [setKey, ite_apply, h1, h2, h3]
    | some a => simp [setKey, ite_apply, h1, h2, h3]
  · simp [setKey, ite_apply, h1, h2, h3]

theorem pdvBreach_frame (data : DataMap) (k : String)
    (h1 : k ≠ "[IS_BREACH_OF_CONTRACT_06]") (h2 : k ≠ "[IS_NOT_COMPLEX]")
    (h3 : k ≠ "[IS_COMPLEX]") (h4 : k ≠ "[IS_MONETARY]")
    (h5 : k ≠ "[IS_NON_MONETARY]") (h6 : k ≠ "[IS_NOT_CLASS_ACTION]")
    (h7 : k ≠ "[IS_CLASS_ACTION]") (h8 : k ≠ "[IS_REASON5]") :
    pdvBreach data k = data k := by
  simp [pdvBreach, setKey, ite_apply, h1, h2, h3, h4, h5, h6, h7, h8]

theorem pdvCauses_frame (data : DataMap) (k : String)
    (h : k ≠ "[NUMBER_OF_CAUSES]") :
    pdvCauses data k = data k := by
  simp only [pdvCauses]
  cases hp : parseIntM (jsStringOfValue (data "[NUMBER_OF_CAUSES]")) with
  | none => simp [setKey, ite_apply, h]
  | some n =>
    cases hw : numWordsTable n with
    | none => simp [setKey, ite_apply, h, hw]
    | some w => simp [setKey, ite_apply, h, hw]

theorem pdvCreditor_frame (data : DataMap) (k : String)
    (h1 : k ≠ "[IS_JUDGMENT_CREDITOR]") (h2 : k ≠ "[IS_JUDGMENT_CREDITOR2]")
    (h3 : k ≠ "[IS_ASSIGNEE_OF_RECORD]") (h4 : k ≠ "[IS_ASSIGNEE_OF_RECORD2]") :
    pdvCreditor data k = data k := by
  simp [pdvCreditor, setKey, h1, h2, h3, h4]

theorem pdvStay_frame (data : DataMap) (k : String) (h : k ≠ "[IS_STAY_ORDERED]") :
    pdvStay data k = data k := by
  simp [pdvStay, setKey, ite_apply, h]

theorem pdvCertified_frame (data : DataMap) (k : String)
    (h : k ≠ "[IS_CERTIFIED_ABSTRACT]") :
    pdvCertified data k = data k := by
  simp [pdvCertified, setKey, h]

theorem pdvMirror_frame (data : DataMap) (k : String) (h : k ≠ "[CASE_NUMBER_P2]") :
    pdvMirror data k = data k := by
  simp only [pdvMirror]
  cases hv : data "[CASE_NUMBER]" with
  | none => simp [setKey, ite_apply, h]
  | some v => simp [setKey, ite_apply, h]

/-! ## Behaviour lemmas for the blocks the claims are about -/

theorem pdvCourtLookup_skip (rules : List JurisdictionRule) (ci : List CourtInfoRow)
    (data : DataMap) (h : getStrOr data "[DEBTOR1_ZIP]" = "") :
    pdvCourtLookup rules ci data = data := by
  simp only [pdvCourtLookup]
  rw [if_neg (by simp [h])]

theorem pdvMailing_sets (data : DataMap)
    (h : jsTrim (jsToLowerCase (getStrOr data "[COURT_MAILING_ADDRESS]")) = "" ∨
      jsTrim (jsToLowerCase (getStrOr data "[COURT_MAILING_ADDRESS]")) =
        jsTrim (jsToLowerCase (getStrOr data "[COURT_STREET_ADDRESS]"))) :
    pdvMailing data "[COURT_MAILING_ADDRESS]" = some (.str "Same as street address") := by
  simp only [pdvMailing]
  rw [if_pos h]
  simp [setKey]

theorem pdvLimited_limited (data : DataMap) (q : Rat)
    (hne : strOrElse (getStrOr data "[DEMAND_AMOUNT]")
      (getStrOr data "[JUDGMENT_TOTAL_AMOUNT]") ≠ "")
    (hp : parseFloatM (cleanAmountOf (strOrElse (getStrOr data "[DEMAND_AMOUNT]")
      (getStrOr data "[JUDGMENT_TOTAL_AMOUNT]"))) = some q)
    (hle : q ≤ 35000) :
    pdvLimited data "[IS_LIMITED]" = some (.bool true) ∧
      pdvLimited data "[IS_UNLIMITED]" = some (.bool false) := by
  simp only [pdvLimited]
  rw [if_pos hne, hp]
  dsimp only
  rw [if_pos hne, if_pos hle]
  constructor <;> simp [setKey]

theorem pdvLimited_unlimited (data : DataMap) (q : Rat)
    (hne : strOrElse (getStrOr data "[DEMAND_AMOUNT]")
      (getStrOr data "[JUDGMENT_TOTAL_AMOUNT]") ≠ "")
    (hp : parseFloatM (cleanAmountOf (strOrElse (getStrOr data "[DEMAND_AMOUNT]")
      (getStrOr data "[JUDGMENT_TOTAL_AMOUNT]"))) = some q)
    (hlt : 35000 < q) :
    pdvLimited data "[IS_UNLIMITED]" = some (.bool true) ∧
      pdvLimited data "[IS_LIMITED]" = some (.bool false) := by
  simp only [pdvLimited]
  rw [if_pos hne, hp]
  dsimp only
  rw [if_pos hne, if_neg (not_le.mpr hlt)]
  constructor <;> simp [setKey]

theorem pdvLimited_off (data : DataMap)
    (h : strOrElse (getStrOr data "[DEMAND_AMOUNT]")
        (getStrOr data "[JUDGMENT_TOTAL_AMOUNT]") = "" ∨
      parseFloatM (cleanAmountOf (strOrElse (getStrOr data "[DEMAND_AMOUNT]")
        (getStrOr data "[JUDGMENT_TOTAL_AMOUNT]"))) = none) :
    pdvLimited data "[IS_LIMITED]" = some (.bool false) ∧
      pdvLimited data "[IS_UNLIMITED]" = some (.bool false) := by
  simp only [pdvLimited]
  by_cases hd : strOrElse (getStrOr data "[DEMAND_AMOUNT]")
      (getStrOr data "[JUDGMENT_TOTAL_AMOUNT]") = ""
  · rw [if_neg (by simp [hd])]
    dsimp only
    rw [if_neg (by simp [hd])]
    constructor <;> simp [setKey]
  · rcases h with h | h
    · exact absurd h hd
    · rw [if_pos hd, h]
      constructor <;> simp [setKey]

theorem pdvCauses_rewrites (data : DataMap) (s : String) (n : Int) (w : String)
    (hv : data "[NUMBER_OF_CAUSES]" = some (.str s)) (hs : s ≠ "")
    (hp : parseIntM s = some n) (hw : numWordsTable n = some w) :
    pdvCauses data "[NUMBER_OF_CAUSES]" = some (.str (toString n ++ " (" ++ w ++ ")")) := by
  simp only [pdvCauses, hv, jsStringOfValue]
  rw [if_pos (by simp [jsTruthy, hs]), hp]
  dsimp only
  rw [hw]
  simp [setKey]

theorem pdvCauses_id_str (data : DataMap) (s : String)
    (hv : data "[NUMBER_OF_CAUSES]" = some (.str s))
    (h : s = "" ∨ (parseIntM s).bind numWordsTable = none) :
    pdvCauses data = data := by
  simp only [pdvCauses, hv, jsStringOfValue]
  by_cases hs : s = ""
  · subst hs
    rw [if_neg (by simp [jsTruthy])]
  · rw [if_pos (by simp [jsTruthy, hs])]
    rcases h with h | h
    · exact absurd h hs
    · cases hp : parseIntM s with
      | none => rfl
      | some n =>
        rw [hp, Option.some_bind] at h
        dsimp only
        rw [h]

theorem pdvCauses_id_none (data : DataMap)
    (hv : data "[NUMBER_OF_CAUSES]" = none) :
    pdvCauses data = data := by
  simp only [pdvCauses, hv]
  rw [if_neg (by simp [jsTruthy])]

/-- The two accepted shapes of an input value carrying the string `s`:
absent (with `s` standing for the empty read) or stored as the string. -/
abbrev strOrAbsent (v : Option JsValue) (s : String) : Prop :=
  v = none ∧ s = "" ∨ v = some (.str s)

/-- The four pipeline blocks between sanitisation and the court lookup. -/
def pdvCore (data : DataMap) : DataMap :=
  pdvDefendant (pdvAttyFirm (pdvDebtorAddr (pdvLast4 (pdvSanitize data))))

/-- Every key written by a block of `pdvCore`. -/
def pdvCoreKeys : List String :=
  ["[VAR_DEFENDANT_WITH_DOES]", "[VAR_DEFENDANT_NAME]", "[VAR_DEFENDANT_NAME_ET_AL]",
   "[VAR_DEFENDANT_INDIVIDUAL]", "[DEFENDANT_NAME_P2]", "[VAR_DEFENDANT_NAME_WITH_ADDRESS]",
   "[VAR_DEFENDANT_NAME_WITH_ADDRESS_NO_INDIVIDUAL]", "[VAR_DEFENDANT_SERVICE_ADDRESS]",
   "[FIRM_NAME]", "[VAR_FIRM_FULL_NAME]", "[VAR_FIRM_FULL_NAME_CAPITAL]", "[VAR_ATTY1_NAME]",
   "[VAR_ATTY2_NAME]", "[VAR_CAPITAL_ATTY_NAME2]", "[VAR_CITY_STATE_ZIP]",
   "[IS_DEBTOR1_DL_UNKNOWN]", "[IS_DEBTOR1_SS_UNKNOWN]", "[VAR_ATTY_NAME_WITH_ADDRESS]",
   "[VAR_ATTY_NAME2]", "[VAR_ATTY_WITH_SBN]", "[VAR_ATTY_EMAIL]", "[VAR_FIRM_FULL_ADDR]",
   "[VAR_FIRM_FULL_ADDR_NO_FIRM]", "[DEBTOR1_ADDRESS]", "[DEBTOR1_CITY]",
   "[DEBTOR1_DL_LAST4]", "[DEBTOR1_SS_LAST4]", "[DEBTOR2_DL_LAST4]", "[DEBTOR2_SS_LAST4]"]

theorem pdvCore_reads (m : DataMap) (k s : String)
    (hv : strOrAbsent (m k) s) (hn : s ≠ "null") (hk : k ∉ pdvCoreKeys) :
    pdvCore m k = m k := by
  simp only [pdvCoreKeys, List.mem_cons, List.mem_singleton, not_or] at hk
  obtain ⟨k1, k2, k3, k4, k5, k6, k7, k8, k9, k10, k11, k12, k13, k14, k15, k16, k17, k18,
    k19, k20, k21, k22, k23, k24, k25, k26, k27, k28, k29, -⟩ := hk
  simp only [pdvCore]
  rw [pdvDefendant_frame _ _ k1 k2 k3 k4 k5 k6 k7 k8,
    pdvAttyFirm_frame _ _ k9 k10 k11 k12 k13 k14 k15 k16 k17 k18 k19 k20 k21 k22 k23,
    pdvDebtorAddr_frame _ _ k24 k25,
    pdvLast4_frame _ _ k26 k27 k28 k29,
    pdvSanitize_id_at hv hn]

/-- The pipeline up to and including the case-name block. -/
def pdvFront (rules : List JurisdictionRule) (ci : List CourtInfoRow) (data : DataMap) :
    DataMap :=
  pdvPlaintiffCase (pdvMailing (pdvCourtLookup rules ci (pdvCore data)))

/-- Every key written by `pdvCourtLookup`, `pdvMailing` or `pdvPlaintiffCase`. -/
def pdvFrontKeys : List String :=
  ["[VAR_PLAINTIFF_NAME]", "[VAR_CREDITOR1_NAME]", "[VAR_COURT_COUNTY]", "[VAR_CASE_NAME]",
   "[CASE_NAME2]", "[CASE_NAME3]", "[CASE_NAME4]", "[CASE_NAME5]",
   "[VAR_COURTHOUSE]", "[COURT_BRANCH_NAME]", "[VAR_COURT_INFO]", "[COURT_DISTRICT]",
   "[COURT_STREET_ADDRESS]", "[COURT_MAILING_ADDRESS]", "[COURT_CITY_ZIP]",
   "[NEED_COURT_SELECTION]", "[COURT_OPTIONS]", "[ZIP_NOT_FOUND]"]

theorem pdvFront_reads (rules : List JurisdictionRule) (ci : List CourtInfoRow)
    (m : DataMap) (k s : String)
    (hv : strOrAbsent (m k) s) (hn : s ≠ "null")
    (hk1 : k ∉ pdvFrontKeys) (hk2 : k ∉ pdvCoreKeys) :
    pdvFront rules ci m k = m k := by
  simp only [pdvFrontKeys, List.mem_cons, List.mem_singleton, not_or] at hk1
  obtain ⟨j1, j2, j3, j4, j5, j6, j7, j8, j9, j10, j11, j12, j13, j14, j15, j16, j17, j18,
    -⟩ :=
    hk1
  simp only [pdvFront]
  rw [pdvPlaintiffCase_frame _ _ j1 j2 j3 j4 j5 j6 j7 j8,
    pdvMailing_frame _ _ j14,
    pdvCourtLookup_frame _ _ _ _ j9 j10 j11 j12 j13 j14 j15 j16 j17 j18,
    pdvCore_reads m k s hv hn hk2]

theorem processDV_eq (rules : List JurisdictionRule) (ci : List CourtInfoRow) (m : DataMap) :
    processDynamicVariables rules ci m =
      pdvMirror (pdvCertified (pdvStay (pdvCreditor (pdvCauses (pdvBreach
        (pdvLimited (pdvFront rules ci m))))))) := rfl

theorem pdvTail_frame (d : DataMap) (k : String)
    (h1 : k ≠ "[IS_BREACH_OF_CONTRACT_06]") (h2 : k ≠ "[IS_NOT_COMPLEX]")
    (h3 : k ≠ "[IS_COMPLEX]") (h4 : k ≠ "[IS_MONETARY]")
    (h5 : k ≠ "[IS_NON_MONETARY]") (h6 : k ≠ "[IS_NOT_CLASS_ACTION]")
    (h7 : k ≠ "[IS_CLASS_ACTION]") (h8 : k ≠ "[IS_REASON5]")
    (h9 : k ≠ "[NUMBER_OF_CAUSES]")
    (h10 : k ≠ "[IS_JUDGMENT_CREDITOR]") (h11 : k ≠ "[IS_JUDGMENT_CREDITOR2]")
    (h12 : k ≠ "[IS_ASSIGNEE_OF_RECORD]") (h13 : k ≠ "[IS_ASSIGNEE_OF_RECORD2]")
    (h14 : k ≠ "[IS_STAY_ORDERED]") (h15 : k ≠ "[IS_CERTIFIED_ABSTRACT]")
    (h16 : k ≠ "[CASE_NUMBER_P2]") :
    pdvMirror (pdvCertified (pdvStay (pdvCreditor (pdvCauses (pdvBreach d))))) k = d k := by
  rw [pdvMirror_frame _ _ h16, pdvCertified_frame _ _ h15, pdvStay_frame _ _ h14,
    pdvCreditor_frame _ _ h10 h11 h12 h13, pdvCauses_frame _ _ h9,
    pdvBreach_frame _ _ h1 h2 h3 h4 h5 h6 h7 h8]

/-- C6.  In the derived-field pipeline, when the demand/judgment amount
read (`data[DEMAND_AMOUNT] || data[JUDGMENT_TOTAL_AMOUNT] || ''`) is
non-empty and parses after stripping non-numeric characters, an amount
`≤ 35000` sets `IS_LIMITED` to `true` and `IS_UNLIMITED` to `false`, and
an amount `> 35000` sets `IS_UNLIMITED` to `true` and `IS_LIMITED` to
`false`; when the amount is absent or unparsable both flags are set to
`false`. -/
theorem pipeline_monetary_flags (rules : List JurisdictionRule) (ci : List CourtInfoRow)
    (m : DataMap) (s1 s2 : String)
    (h1 : strOrAbsent (m "[DEMAND_AMOUNT]") s1)
    (h2 : strOrAbsent (m "[JUDGMENT_TOTAL_AMOUNT]") s2)
    (hn1 : s1 ≠ "null") (hn2 : s2 ≠ "null") :
    (∀ q : Rat, strOrElse s1 s2 ≠ "" →
      parseFloatM (cleanAmountOf (strOrElse s1 s2)) = some q →
      (q ≤ 35000 →
        processDynamicVariables rules ci m "[IS_LIMITED]" = some (.bool true) ∧
          processDynamicVariables rules ci m "[IS_UNLIMITED]" = some (.bool false)) ∧
      (35000 < q →
        processDynamicVariables rules ci m "[IS_UNLIMITED]" = some (.bool true) ∧
          processDynamicVariables rules ci m "[IS_LIMITED]" = some (.bool false))) ∧
    (strOrElse s1 s2 = "" ∨ parseFloatM (cleanAmountOf (strOrElse s1 s2)) = none →
      processDynamicVariables rules ci m "[IS_LIMITED]" = some (.bool false) ∧
        processDynamicVariables rules ci m "[IS_UNLIMITED]" = some (.bool false)) := by
  have hd1 : getStrOr (pdvFront rules ci m) "[DEMAND_AMOUNT]" = s1 :=
    getStrOr_eq_of _ _ _ (by
      rw [pdvFront_reads rules ci m "[DEMAND_AMOUNT]" s1 h1 hn1 (by decide) (by decide)]
      exact h1)
  have hd2 : getStrOr (pdvFront rules ci m) "[JUDGMENT_TOTAL_AMOUNT]" = s2 :=
    getStrOr_eq_of _ _ _ (by
      rw [pdvFront_reads rules ci m "[JUDGMENT_TOTAL_AMOUNT]" s2 h2 hn2 (by decide)
        (by decide)]
      exact h2)
  have keyL : processDynamicVariables rules ci m "[IS_LIMITED]" =
      pdvLimited (pdvFront rules ci m) "[IS_LIMITED]" := by
    rw [processDV_eq]
    exact pdvTail_frame _ _ (by decide) (by decide) (by decide) (by decide) (by decide)
      (by decide) (by decide) (by decide) (by decide) (by decide) (by decide) (by decide)
      (by decide) (by decide) (by decide) (by decide)
  have keyU : processDynamicVariables rules ci m "[IS_UNLIMITED]" =
      pdvLimited (pdvFront rules ci m) "[IS_UNLIMITED]" := by
    rw [processDV_eq]
    exact pdvTail_frame _ _ (by decide) (by decide) (by decide) (by decide) (by decide)
      (by decide) (by decide) (by decide) (by decide) (by decide) (by decide) (by decide)
      (by decide) (by decide) (by decide) (by decide)
  refine ⟨fun q hne hp => ?_, fun h0 => ?_⟩
  · have hne' : strOrElse (getStrOr (pdvFront rules ci m) "[DEMAND_AMOUNT]")
        (getStrOr (pdvFront rules ci m) "[JUDGMENT_TOTAL_AMOUNT]") ≠ "" := by
      rw [hd1, hd2]; exact hne
    have hp' : parseFloatM (cleanAmountOf (strOrElse
        (getStrOr (pdvFront rules ci m) "[DEMAND_AMOUNT]")
        (getStrOr (pdvFront rules ci m) "[JUDGMENT_TOTAL_AMOUNT]"))) = some q := by
      rw [hd1, hd2]; exact hp
    refine ⟨fun hle => ?_, fun hlt => ?_⟩
    · obtain ⟨e1, e2⟩ := pdvLimited_limited (pdvFront rules ci m) q hne' hp' hle
      exact ⟨keyL.trans e1, keyU.trans e2⟩
    · obtain ⟨e1, e2⟩ := pdvLimited_unlimited (pdvFront rules ci m) q hne' hp' hlt
      exact ⟨keyU.trans e1, keyL.trans e2⟩
  · have h0' : strOrElse (getStrOr (pdvFront rules ci m) "[DEMAND_AMOUNT]")
        (getStrOr (pdvFront rules ci m) "[JUDGMENT_TOTAL_AMOUNT]") = "" ∨
        parseFloatM (cleanAmountOf (strOrElse
          (getStrOr (pdvFront rules ci m) "[DEMAND_AMOUNT]")
          (getStrOr (pdvFront rules ci m) "[JUDGMENT_TOTAL_AMOUNT]"))) = none := by
      rw [hd1, hd2]; exact h0
    obtain ⟨e1, e2⟩ := pdvLimited_off (pdvFront rules ci m) h0'
    exact ⟨keyL.trans e1, keyU.trans e2⟩

theorem pipeline_monetary_flags_witness :
    (processDynamicVariables [] [] (setKey emptyData "[DEMAND_AMOUNT]" (.str "35000"))
        "[IS_LIMITED]" = some (.bool true) ∧
      processDynamicVariables [] [] (setKey emptyData "[DEMAND_AMOUNT]" (.str "35000"))
        "[IS_UNLIMITED]" = some (.bool false)) ∧
    (processDynamicVariables [] [] (setKey emptyData "[DEMAND_AMOUNT]" (.str "35000.01"))
        "[IS_UNLIMITED]" = some (.bool true) ∧
      processDynamicVariables [] [] (setKey emptyData "[DEMAND_AMOUNT]" (.str "35000.01"))
        "[IS_LIMITED]" = some (.bool false)) ∧
    (processDynamicVariables [] [] emptyData "[IS_LIMITED]" = some (.bool false) ∧
      processDynamicVariables [] [] emptyData "[IS_UNLIMITED]" = some (.bool false)) := by
  refine ⟨?_, ?_, ?_⟩
  · exact ((pipeline_monetary_flags [] [] _ "35000" "" (by decide) (by decide) (by decide)
      (by decide)).1 (mkRat 35000 1) (by decide) (by decide)).1 (by decide)
  · exact ((pipeline_monetary_flags [] [] _ "35000.01" "" (by decide) (by decide) (by decide)
      (by decide)).1 (mkRat 3500001 100) (by decide) (by decide)).2 (by decide)
  · exact (pipeline_monetary_flags [] [] emptyData "" "" (by decide) (by decide) (by decide)
      (by decide)).2 (Or.inl (by decide))

/-- C9 (amended).  A `NUMBER_OF_CAUSES` string whose JavaScript
`parseInt` value (sign and longest digit prefix, so e.g. `"3.7"` parses
to `3`) lies in the 1–10 number-word table is rewritten to
`"{n} ({WORD})"`; a value that is empty, has no integer prefix, or whose
parsed value is outside the table is left untouched. -/
theorem pipeline_number_of_causes (rules : List JurisdictionRule) (ci : List CourtInfoRow)
    (m : DataMap) (s : String)
    (hv : m "[NUMBER_OF_CAUSES]" = some (.str s)) (hn : s ≠ "null") :
    (∀ n w, parseIntM s = some n → numWordsTable n = some w →
      processDynamicVariables rules ci m "[NUMBER_OF_CAUSES]" =
        some (.str (toString n ++ " (" ++ w ++ ")"))) ∧
    (s = "" ∨ (parseIntM s).bind numWordsTable = none →
      processDynamicVariables rules ci m "[NUMBER_OF_CAUSES]" = some (.str s)) := by
  have hY : pdvBreach (pdvLimited (pdvFront rules ci m)) "[NUMBER_OF_CAUSES]" =
      some (.str s) := by
    rw [pdvBreach_frame _ _ (by decide) (by decide) (by decide) (by decide) (by decide)
        (by decide) (by decide) (by decide),
      pdvLimited_frame _ _ (by decide) (by decide) (by decide),
      pdvFront_reads rules ci m "[NUMBER_OF_CAUSES]" s (Or.inr hv) hn (by decide) (by decide)]
    exact hv
  have hkey : ∀ v, pdvCauses (pdvBreach (pdvLimited (pdvFront rules ci m)))
        "[NUMBER_OF_CAUSES]" = v →
      processDynamicVariables rules ci m "[NUMBER_OF_CAUSES]" = v := by
    intro v he
    rw [processDV_eq, pdvMirror_frame _ _ (by decide), pdvCertified_frame _ _ (by decide),
      pdvStay_frame _ _ (by decide),
      pdvCreditor_frame _ _ (by decide) (by decide) (by decide) (by decide)]
    exact he
  constructor
  · intro n w hpn hw
    have hs : s ≠ "" := by
      intro he
      rw [he, (by decide : parseIntM "" = none)] at hpn
      exact Option.noConfusion hpn
    exact hkey _ (pdvCauses_rewrites _ s n w hY hs hpn hw)
  · intro h0
    refine hkey _ ?_
    rw [pdvCauses_id_str _ s hY h0]
    exact hY

/-- C9 counterexample.  The value `"3.7"` is not an integer count, so the
claim says it is left untouched; the code's `parseInt` reads the digit
prefix `3` and rewrites it to `"3 (THREE)"`. -/
theorem pipeline_number_of_causes_counterexample :
    processDynamicVariables [] [] (setKey emptyData "[NUMBER_OF_CAUSES]" (.str "3.7"))
      "[NUMBER_OF_CAUSES]" = some (.str "3 (THREE)") ∧
    ("3 (THREE)" : String) ≠ "3.7" := by
  exact ⟨by decide, by decide⟩

theorem pipeline_number_of_causes_witness :
    processDynamicVariables [] [] (setKey emptyData "[NUMBER_OF_CAUSES]" (.str "3"))
      "[NUMBER_OF_CAUSES]" = some (.str "3 (THREE)") ∧
    processDynamicVariables [] [] (setKey emptyData "[NUMBER_OF_CAUSES]" (.str "12"))
      "[NUMBER_OF_CAUSES]" = some (.str "12") := by
  constructor
  · exact (pipeline_number_of_causes [] [] _ "3" (by decide) (by decide)).1 3 "THREE"
      (by decide) (by decide)
  · exact (pipeline_number_of_causes [] [] _ "12" (by decide) (by decide)).2
      (Or.inr (by decide))

/-- C10.  The mailing-address rule runs unconditionally: when the debtor
ZIP is absent or empty (so the court lookup is skipped) and both court
address fields are absent or empty, the pipeline still sets
`COURT_MAILING_ADDRESS` to the literal string
`"Same as street address"`. -/
theorem pipeline_mailing_unconditional (rules : List JurisdictionRule)
    (ci : List CourtInfoRow) (m : DataMap)
    (hz : m "[DEBTOR1_ZIP]" = none ∨ m "[DEBTOR1_ZIP]" = some (.str ""))
    (_hs : m "[COURT_STREET_ADDRESS]" = none ∨ m "[COURT_STREET_ADDRESS]" = some (.str ""))
    (hma : m "[COURT_MAILING_ADDRESS]" = none ∨
      m "[COURT_MAILING_ADDRESS]" = some (.str "")) :
    processDynamicVariables rules ci m "[COURT_MAILING_ADDRESS]" =
      some (.str "Same as street address") := by
  have toAbs : ∀ v : Option JsValue, v = none ∨ v = some (.str "") → strOrAbsent v "" := by
    intro v h
    rcases h with h | h
    · exact Or.inl ⟨h, rfl⟩
    · exact Or.inr h
  have hz' : getStrOr (pdvCore m) "[DEBTOR1_ZIP]" = "" :=
    getStrOr_eq_of _ _ _ (by
      rw [pdvCore_reads m "[DEBTOR1_ZIP]" "" (toAbs _ hz) (by decide) (by decide)]
      exact toAbs _ hz)
  have hskip : pdvCourtLookup rules ci (pdvCore m) = pdvCore m :=
    pdvCourtLookup_skip rules ci _ hz'
  have hm' : getStrOr (pdvCore m) "[COURT_MAILING_ADDRESS]" = "" :=
    getStrOr_eq_of _ _ _ (by
      rw [pdvCore_reads m "[COURT_MAILING_ADDRESS]" "" (toAbs _ hma) (by decide) (by decide)]
      exact toAbs _ hma)
  have hmain : pdvMailing (pdvCourtLookup rules ci (pdvCore m)) "[COURT_MAILING_ADDRESS]" =
      some (.str "Same as street address") := by
    rw [hskip]
    refine pdvMailing_sets _ (Or.inl ?_)
    rw [hm']
    decide
  rw [processDV_eq,
    pdvTail_frame _ _ (by decide) (by decide) (by decide) (by decide) (by decide) (by decide)
      (by decide) (by decide) (by decide) (by decide) (by decide) (by decide) (by decide)
      (by decide) (by decide) (by decide),
    pdvLimited_frame _ _ (by decide) (by decide) (by decide)]
  simp only [pdvFront]
  rw [pdvPlaintiffCase_frame _ _ (by decide) (by decide) (by decide) (by decide) (by decide)
    (by decide) (by decide) (by decide)]
  exact hmain

theorem pipeline_mailing_unconditional_witness :
    processDynamicVariables [] [] emptyData "[COURT_MAILING_ADDRESS]" =
      some (.str "Same as street address") :=
  pipeline_mailing_unconditional [] [] emptyData (Or.inl rfl) (Or.inl rfl) (Or.inl rfl)

/-- C4 (amended).  With plaintiff `"jane q. smith"` and defendant
`"ACME Corp, a corporation"` the pipeline sets `[VAR_CASE_NAME]` to
`"Jane Q. Smith v. Acme CORP, et al."`: the `", a corporation"` suffix
is stripped and both names title-cased, but the acronym exception DOES
fire on the word `"Corp"` (its upper-cased core `"CORP"` is in the
acronym list), so that word is upper-cased rather than kept as
`"Corp"`. -/
theorem pipeline_case_name :
    processDynamicVariables [] [] (setKey (setKey emptyData "[PLAINTIFF_NAME]"
        (.str "jane q. smith")) "[DEFENDANT_NAME]" (.str "ACME Corp, a corporation"))
      "[VAR_CASE_NAME]" = some (.str "Jane Q. Smith v. Acme CORP, et al.") := by
  decide

/-- C4 counterexample.  The produced case name upper-cases `"Corp"`, so
it differs from the claimed `"Jane Q. Smith v. Acme Corp, et al."`. -/
theorem pipeline_case_name_counterexample :
    processDynamicVariables [] [] (setKey (setKey emptyData "[PLAINTIFF_NAME]"
        (.str "jane q. smith")) "[DEFENDANT_NAME]" (.str "ACME Corp, a corporation"))
      "[VAR_CASE_NAME]" ≠ some (.str "Jane Q. Smith v. Acme Corp, et al.") := by
  decide
